import Mathlib

/-!
# gosoap example client (`example/main.go`)

A shallow embedding of the example program of `noho-digital/gosoap`:

* the configuration values built by `tlsConfig`, `transport` and `client`;
* `main`, as a function from the outcomes of its collaborators (`os.Getwd`,
  `gosoap.SoapClientWithConfig`, `soap.Call`, `res.Unmarshal`, `xml.Unmarshal`)
  to the sequence of observable events of one run and the exit code;
* the two-step decode of the doubly encoded response.
-/

namespace Gosoap

/-! ## Durations (`time.Duration`, an `int64` count of nanoseconds) -/

/-- A `time.Duration`: a signed count of nanoseconds. -/
abbrev Duration := Int

/-- The constant `time.Nanosecond`. -/
def Nanosecond : Duration := 1
/-- The constant `time.Microsecond`. -/
def Microsecond : Duration := 1000 * Nanosecond
/-- The constant `time.Millisecond`. -/
def Millisecond : Duration := 1000 * Microsecond
/-- The constant `time.Second`. -/
def Second : Duration := 1000 * Millisecond

/-- Largest value of an `int64`, the representation of `time.Duration`. -/
def maxInt64 : Int := 2 ^ 63 - 1

/-! ## HTTP client configuration (`main.go`, lines 88-112)

Only the fields that the program sets are modelled; every other field of the
Go structures keeps its zero value. -/

/-- The fields of `tls.Config` set by the program. -/
structure TLSConfig where
  InsecureSkipVerify : Bool
  deriving DecidableEq, Repr

/-- The fields of `net.Dialer` set by the program. -/
structure Dialer where
  Timeout : Duration
  deriving DecidableEq, Repr

/-- The fields of `http.Transport` set by the program. `Dial` is the method
value `(&net.Dialer{...}).Dial`, represented by the dialer it is bound to. -/
structure Transport where
  TLSClientConfig : TLSConfig
  TLSHandshakeTimeout : Duration
  Dial : Dialer
  deriving DecidableEq, Repr

/-- The fields of `http.Client` set by the program. -/
structure HTTPClient where
  Transport : Transport
  Timeout : Duration
  deriving DecidableEq, Repr

/-- `tlsConfig`: disable strict TLS certificate checking. -/
def tlsConfig : TLSConfig :=
  { InsecureSkipVerify := true }

/-- `transport`: the tcp transport with its timeouts and tls config. -/
def transport : Transport :=
  { TLSClientConfig := tlsConfig
    TLSHandshakeTimeout := 2 * Second
    Dial := { Timeout := 5 * Second } }

/-- `client`: the http client handed to the soap client. -/
def client : HTTPClient :=
  { Transport := transport
    Timeout := 5 * Second }

/-! ## Data of `main` -/

/-- `GetIPLocationResponse` holds the soap response: one string field, tagged
`GetIpLocationResult`. -/
structure GetIPLocationResponse where
  GetIPLocationResult : String
  deriving DecidableEq, Repr

/-- `GetIPLocationResult`: the inner document, root element `GeoIP`, with the
fields tagged `Country` and `State`. -/
structure GetIPLocationResult where
  Country : String
  State : String
  deriving DecidableEq, Repr

/-- `gosoap.Config` as filled in by `main`. -/
structure Config where
  Dump : Bool
  PrefixOperation : Bool
  Endpoint : String
  deriving DecidableEq, Repr

/-- `gosoap.Params`, a Go map from parameter name to value: the entries of the
map literal, with pairwise distinct keys. A Go map has no iteration order. -/
abbrev Params := List (String × String)

/-- `gosoap.ArrayParams`: the ordered sequence of (name, value) pairs. -/
abbrev ArrayParams := List (String × String)

/-- The argument printed by a `log.Fatalf` of `main`: an error (its message) or
the package variable `r`. -/
inductive FatalArg where
  | err (e : String)
  | response (r : GetIPLocationResponse)
  deriving DecidableEq, Repr

/-- The observable events of a run of `main`, in program order: the calls made
to the collaborators with their arguments, and the log output. -/
inductive Event where
  | Getwd
  | SetCustomEnvelope (root : String) (namespaces : List (String × String))
  | SoapClientWithConfig (wsdl : String) (c : HTTPClient) (cfg : Config)
  | Call (operation : String) (params : Params)
  | ResUnmarshal
  | XmlUnmarshal (data : String)
  | Fatalf (format : String) (arg : FatalArg)
  | Println (args : List String)
  deriving DecidableEq, Repr

/-- One run of `main`: its events and the exit code of the process
(`log.Fatalf` prints and then calls `os.Exit(1)`). -/
structure Run where
  events : List Event
  exitCode : Nat
  deriving DecidableEq, Repr

/-- The collaborators of `main`, as the results they return. `σ` is the type of
the soap client, `ρ` the type of the call result; a Go `error` is represented by
its message. -/
structure World (σ ρ : Type) where
  Getwd : Except String String
  SoapClientWithConfig : String → HTTPClient → Config → Except String σ
  Call : σ → String → Params → Except String ρ
  Unmarshal : ρ → Except String GetIPLocationResponse
  xmlUnmarshal : String → Except String GetIPLocationResult

/-- The call `log.Fatalf(format, arg)` after the events `tr`: the run ends here
with exit code 1. -/
def fatalf (tr : List Event) (format : String) (arg : FatalArg) : Run :=
  { events := tr ++ [Event.Fatalf format arg], exitCode := 1 }

/-- The namespace map literal given to `gosoap.SetCustomEnvelope`. -/
def envelopeNamespaces : List (String × String) :=
  [("xmlns:soapenv", "http://schemas.xmlsoap.org/soap/envelope/"),
   ("xmlns:sch", "http://lavasoft.com/")]

/-- The `gosoap.Config` literal of `main`. -/
def config : Config :=
  { Dump := true, PrefixOperation := true, Endpoint := "http://localhost:8080" }

/-- The value `fmt.Sprintf("file://%s/../testdata/ipservice.wsdl", pwd)`: the
verb `%s` applied to a string inserts it unchanged. -/
def wsdlURI (pwd : String) : String :=
  "file://" ++ pwd ++ "/../testdata/ipservice.wsdl"

/-- The `gosoap.Params` literal of `main`. -/
def params : Params :=
  [("sch:sIp", "8.8.8.8")]

/-- The function `main` of `example/main.go`. -/
def main {σ ρ : Type} (w : World σ ρ) : Run :=
  match w.Getwd with
  | .error err => fatalf [.Getwd] "error getting current working directory: %s" (.err err)
  | .ok pwd =>
    let t₁ := [Event.Getwd, .SetCustomEnvelope "soapenv" envelopeNamespaces,
      .SoapClientWithConfig (wsdlURI pwd) client config]
    match w.SoapClientWithConfig (wsdlURI pwd) client config with
    | .error err => fatalf t₁ "SoapClient error: %s" (.err err)
    | .ok soap =>
      let t₂ := t₁ ++ [.Call "sch:GetIpLocation" params]
      match w.Call soap "sch:GetIpLocation" params with
      | .error err => fatalf t₂ "Call error: %s" (.err err)
      | .ok res =>
        let t₃ := t₂ ++ [.ResUnmarshal]
        match w.Unmarshal res with
        | .error err => fatalf t₃ "Error parsing response: %s" (.err err)
        | .ok r =>
          let t₄ := t₃ ++ [.XmlUnmarshal r.GetIPLocationResult]
          match w.xmlUnmarshal r.GetIPLocationResult with
          | .error err => fatalf t₄ "xml.Unmarshal error: %s" (.err err)
          | .ok result =>
            if result.Country ≠ "US" then
              fatalf t₄ "error: %+v" (.response r)
            else
              { events := t₄ ++ [.Println ["Country: ", result.Country],
                  .Println ["State: ", result.State]]
                exitCode := 0 }

/-! ## XML

The reader of `encoding/xml` in its strict mode, as `xml.Unmarshal` drives it,
on inputs that are valid UTF-8: `Decoder.Token` as a machine that takes one
character at a time, and `Decoder.unmarshal` on the tokens. Errors are kept by
kind, without their text. Three constructs are outside the model and give
`XMLError.notModelled`, which says nothing about what the library does: a
directive (`<!DOCTYPE ...>`), a name with a character above U+007F (its validity
depends on the Unicode tables of the library), and an XML declaration whose
`version=` or `encoding=` is not followed by a quote or whose encoding has a
character above U+007F. -/

/-- The function `isInCharacterRange` of `encoding/xml`: the character is in
the `Char` production of XML 1.0. -/
def isInCharacterRange (c : Char) : Bool :=
  let r := c.toNat
  r = 0x09 || r = 0x0A || r = 0x0D || (0x20 ≤ r && r ≤ 0xD7FF) || (0xE000 ≤ r && r ≤ 0xFFFD)
    || (0x10000 ≤ r && r ≤ 0x10FFFF)

/-- Modelled from the spec: the XML-escaped form of a text ("text content
escaping of `&`, `<`, `>`, quotes"), which the service writes and no source
holds. It is taken as `xml.EscapeText` of `encoding/xml` writes it, here for
one character: references for the quotes, `&`, `<`, `>`, tab, line feed and
carriage return, and U+FFFD for a character outside the XML character range. -/
def escapeRune (c : Char) : List Char :=
  if c = '"' then ['&', '#', '3', '4', ';']
  else if c = '\'' then ['&', '#', '3', '9', ';']
  else if c = '&' then ['&', 'a', 'm', 'p', ';']
  else if c = '<' then ['&', 'l', 't', ';']
  else if c = '>' then ['&', 'g', 't', ';']
  else if c = '\t' then ['&', '#', 'x', '9', ';']
  else if c = '\n' then ['&', '#', 'x', 'A', ';']
  else if c = '\r' then ['&', '#', 'x', 'D', ';']
  else if isInCharacterRange c then [c]
  else ['\uFFFD']

/-- `xml.EscapeText` on the characters of a text. -/
def escapeChars : List Char → List Char
  | [] => []
  | c :: cs => escapeRune c ++ escapeChars cs

/-- Modelled from the spec: the XML-escaped form of a text, as `xml.EscapeText`
writes it. -/
def EscapeText (s : String) : String :=
  String.mk (escapeChars s.data)

/-- Errors of the reader, by kind. -/
inductive XMLError where
  | SyntaxError
  | EOF
  | UnmarshalError
  | unsupportedDeclaration
  | notModelled
  deriving DecidableEq, Repr

/-- An `xml.Name`: `Space` is the part of the written name before the colon. -/
structure Name where
  Space : List Char
  Local : List Char
  deriving DecidableEq, Repr

/-- Tokens of `Decoder.Token`. -/
inductive Token where
  | StartElement (name : Name)
  | EndElement (name : Name)
  | CharData (data : List Char)
  | Comment
  | ProcInst
  deriving DecidableEq, Repr

/-- How the sequence of tokens ends. -/
inductive Ending where
  | closed
  | failed (e : XMLError)
  deriving DecidableEq, Repr

/-- The function `isNameByte` of `encoding/xml`. -/
def isNameByte (c : Char) : Bool :=
  let n := c.toNat
  (65 ≤ n && n ≤ 90) || (97 ≤ n && n ≤ 122) || (48 ≤ n && n ≤ 57)
    || c = '_' || c = ':' || c = '.' || c = '-'

/-- A character that `Decoder.readName` takes into a name. -/
def isNameRead (c : Char) : Bool :=
  128 ≤ c.toNat || isNameByte c

/-- The ASCII characters of the table `first` of `encoding/xml`. -/
def isFirst (c : Char) : Bool :=
  let n := c.toNat
  c = ':' || (65 ≤ n && n ≤ 90) || c = '_' || (97 ≤ n && n ≤ 122)

/-- `Decoder.name` on the characters that `readName` has taken. -/
def checkName (cs : List Char) : Except XMLError (List Char) :=
  match cs with
  | [] => .error .SyntaxError
  | c :: _ =>
    if cs.any (fun d => 128 ≤ d.toNat) then .error .notModelled
    else if isFirst c then .ok cs
    else .error .SyntaxError

/-- `Decoder.nsname` on the characters that `readName` has taken. -/
def nsname (cs : List Char) : Except XMLError Name :=
  match checkName cs with
  | .error e => .error e
  | .ok s =>
    if 1 < s.count ':' then .error .SyntaxError
    else
      match s.span (· ≠ ':') with
      | (sp :: sps, _ :: l :: ls) => .ok { Space := sp :: sps, Local := l :: ls }
      | _ => .ok { Space := [], Local := s }

/-- The white space that `Decoder.space` skips. -/
def isSpaceByte (c : Char) : Bool :=
  c = ' ' || c = '\r' || c = '\n' || c = '\t'

/-- The predefined entities. -/
def entity (name : List Char) : Option Char :=
  match name with
  | ['l', 't'] => some '<'
  | ['g', 't'] => some '>'
  | ['a', 'm', 'p'] => some '&'
  | ['a', 'p', 'o', 's'] => some '\''
  | ['q', 'u', 'o', 't'] => some '"'
  | _ => none

/-- Value of a digit in the given base (10 or 16). -/
def digitValue (base : Nat) (c : Char) : Option Nat :=
  let n := c.toNat
  if 48 ≤ n ∧ n ≤ 57 then some (n - 48)
  else if base = 16 ∧ 97 ≤ n ∧ n ≤ 102 then some (n - 87)
  else if base = 16 ∧ 65 ≤ n ∧ n ≤ 70 then some (n - 55)
  else none

/-- Value of a digit sequence, most significant digit first. -/
def parseDigits (base : Nat) (acc : Nat) : List Char → Option Nat
  | [] => some acc
  | c :: cs =>
    match digitValue base c with
    | none => none
    | some d => parseDigits base (acc * base + d) cs

/-- The character of a numeric reference: the digits must not be empty and
their value at most `unicode.MaxRune`; a surrogate becomes U+FFFD. -/
def charRef (base : Nat) (digits : List Char) : Option Char :=
  match digits with
  | [] => none
  | _ :: _ =>
    match parseDigits base 0 digits with
    | none => none
    | some n =>
      if 0x10FFFF < n then none
      else if 0xD800 ≤ n ∧ n ≤ 0xDFFF then some '\uFFFD'
      else some (Char.ofNat n)

/-- The buffer of `Decoder.text` and the two characters read before the current
one (zero at the start and after a reference). -/
structure TextBuf where
  buf : List Char
  b0 : Char
  b1 : Char
  deriving DecidableEq, Repr

/-- The state of `Decoder.text` when it starts. -/
def TextBuf.empty : TextBuf :=
  { buf := [], b0 := Char.ofNat 0, b1 := Char.ofNat 0 }

/-- `Decoder.text` writes a character: a carriage return is written as a line
feed, and the line feed after a carriage return is dropped. -/
def TextBuf.write (t : TextBuf) (c : Char) : TextBuf :=
  { buf := if c = '\r' then t.buf ++ ['\n']
      else if c = '\n' ∧ t.b1 = '\r' then t.buf
      else t.buf ++ [c]
    b0 := t.b1
    b1 := c }

/-- `Decoder.text` replaces a reference by its character. -/
def TextBuf.reference (t : TextBuf) (c : Char) : TextBuf :=
  { buf := t.buf ++ [c], b0 := Char.ofNat 0, b1 := Char.ofNat 0 }

/-- Where character data is read: the content of an element, or the quoted value
of an attribute of the start tag of `elem`. -/
inductive Ctx where
  | content
  | attr (elem : Name) (quote : Char)
  deriving DecidableEq, Repr

/-- Where the reader is in the input. -/
inductive Lex where
  | text (ctx : Ctx) (t : TextBuf)
  | amp (ctx : Ctx) (t : TextBuf)
  | hash (ctx : Ctx) (t : TextBuf)
  | digits (ctx : Ctx) (t : TextBuf) (base : Nat) (ds : List Char)
  | entity (ctx : Ctx) (t : TextBuf) (name : List Char)
  | cdata (t : TextBuf)
  | markup
  | startName (cs : List Char)
  | inTag (elem : Name)
  | emptyTag (elem : Name)
  | attrName (elem : Name) (cs : List Char)
  | attrEq (elem : Name)
  | attrQuote (elem : Name)
  | endName (cs : List Char)
  | endSpace (name : Name)
  | piTarget (cs : List Char)
  | piSpace (target : List Char)
  | piBody (target content : List Char) (b0 : Char)
  | bang
  | bangDash
  | comment (b0 b1 : Char)
  | cdataOpen (i : Nat)
  deriving DecidableEq, Repr

/-- The reader: its place in the input and the stack of open elements, innermost
first. -/
structure Reader where
  lex : Lex
  stk : List Name
  deriving DecidableEq, Repr

/-- The effect of one character: the reader goes on, having produced `out`, or
the sequence of tokens ends after `out`. -/
inductive Step where
  | next (r : Reader) (out : List Token)
  | stop (out : List Token) (e : Ending)
  deriving DecidableEq, Repr

/-- The tokens `out` come before those of the step. -/
def Step.after (out : List Token) : Step → Step
  | .next r o => .next r (out ++ o)
  | .stop o e => .stop (out ++ o) e

/-- The reader stops with an error. -/
def fail (e : XMLError) : Step :=
  .stop [] (.failed e)

/-- The `CharData` token for the text read, if any text was read. -/
def flushText (buf : List Char) : List Token :=
  match buf with
  | [] => []
  | _ :: _ => [.CharData buf]

/-- The text read is handed out: `Decoder.text` ends by rejecting a character
outside the XML character range. -/
def checkText (buf : List Char) : Bool :=
  buf.all isInCharacterRange

/-- The rest of `s` after the first occurrence of `pat`. -/
def afterFirst (pat : List Char) : List Char → Option (List Char)
  | [] => if pat = [] then some [] else none
  | c :: cs =>
    if pat.isPrefixOf (c :: cs) then some ((c :: cs).drop pat.length)
    else afterFirst pat cs

/-- The function `procInst` of `encoding/xml`: the quoted value of `param=` in
the content of a processing instruction, empty when there is none. An
occurrence of `param=` that no quote follows is outside the model. -/
def procInst (param s : List Char) : Except XMLError (List Char) :=
  match afterFirst (param ++ ['=']) s with
  | none => .ok []
  | some [] => .ok []
  | some (q :: v) =>
    if q = '"' ∨ q = '\'' then
      match v.span (· ≠ q) with
      | (value, _ :: _) => .ok value
      | (_, []) => .ok []
    else .error .notModelled

/-- ASCII lower case. -/
def toLowerASCII (c : Char) : Char :=
  if 65 ≤ c.toNat ∧ c.toNat ≤ 90 then Char.ofNat (c.toNat + 32) else c

/-- The check of an XML declaration `<?xml content?>`: the version must be 1.0
and the encoding UTF-8, in any case, when they are given. -/
def checkDeclaration (content : List Char) : Except XMLError Unit :=
  match procInst ['v', 'e', 'r', 's', 'i', 'o', 'n'] content with
  | .error e => .error e
  | .ok ver =>
    if ver ≠ [] ∧ ver ≠ ['1', '.', '0'] then .error .unsupportedDeclaration
    else
      match procInst ['e', 'n', 'c', 'o', 'd', 'i', 'n', 'g'] content with
      | .error e => .error e
      | .ok enc =>
        if enc = [] then .ok ()
        else if enc.any (fun d => 128 ≤ d.toNat) then .error .notModelled
        else if enc.map toLowerASCII = ['u', 't', 'f', '-', '8'] then .ok ()
        else .error .unsupportedDeclaration

/-- The start of a token. -/
def Lex.start : Lex :=
  .text .content TextBuf.empty

/-- A character of character data. -/
def stepText (ctx : Ctx) (t : TextBuf) (stk : List Name) (c : Char) : Step :=
  if c = '>' ∧ t.b0 = ']' ∧ t.b1 = ']' then fail .SyntaxError
  else if c = '<' then
    match ctx with
    | .content =>
      if checkText t.buf then .next { lex := .markup, stk := stk } (flushText t.buf)
      else fail .SyntaxError
    | .attr _ _ => fail .SyntaxError
  else
    match ctx with
    | .content =>
      if c = '&' then .next { lex := .amp ctx t, stk := stk } []
      else .next { lex := .text ctx (t.write c), stk := stk } []
    | .attr elem quote =>
      if c = quote then
        if checkText t.buf then .next { lex := .inTag elem, stk := stk } []
        else fail .SyntaxError
      else if c = '&' then .next { lex := .amp ctx t, stk := stk } []
      else .next { lex := .text ctx (t.write c), stk := stk } []

/-- A character of the name of an entity, after `&`. -/
def stepEntity (ctx : Ctx) (t : TextBuf) (stk : List Name) (name : List Char) (c : Char) :
    Step :=
  if isNameRead c then .next { lex := .entity ctx t (name ++ [c]), stk := stk } []
  else if c = ';' then
    match entity name with
    | some ch => .next { lex := .text ctx (t.reference ch), stk := stk } []
    | none => fail .SyntaxError
  else fail .SyntaxError

/-- A character of the digits of a numeric reference, after `&#` or `&#x`. -/
def stepDigits (ctx : Ctx) (t : TextBuf) (stk : List Name) (base : Nat) (ds : List Char)
    (c : Char) : Step :=
  if (digitValue base c).isSome then .next { lex := .digits ctx t base (ds ++ [c]), stk := stk } []
  else if c = ';' then
    match charRef base ds with
    | some ch => .next { lex := .text ctx (t.reference ch), stk := stk } []
    | none => fail .SyntaxError
  else fail .SyntaxError

/-- A character of a CDATA section. -/
def stepCData (t : TextBuf) (stk : List Name) (c : Char) : Step :=
  if c = '>' ∧ t.b0 = ']' ∧ t.b1 = ']' then
    if checkText (t.buf.dropLast.dropLast) then
      .next { lex := .start, stk := stk } [.CharData (t.buf.dropLast.dropLast)]
    else fail .SyntaxError
  else .next { lex := .cdata (t.write c), stk := stk } []

/-- A character after the name of an attribute: white space, then `=`. -/
def stepAttrEq (elem : Name) (stk : List Name) (c : Char) : Step :=
  if isSpaceByte c then .next { lex := .attrEq elem, stk := stk } []
  else if c = '=' then .next { lex := .attrQuote elem, stk := stk } []
  else fail .SyntaxError

/-- A character of the name of an attribute. -/
def stepAttrName (elem : Name) (stk : List Name) (cs : List Char) (c : Char) : Step :=
  if isNameRead c then .next { lex := .attrName elem (cs ++ [c]), stk := stk } []
  else
    match nsname cs with
    | .error e => fail e
    | .ok _ => stepAttrEq elem stk c

/-- A character inside a start tag, after the name or after an attribute. -/
def stepInTag (elem : Name) (stk : List Name) (c : Char) : Step :=
  if isSpaceByte c then .next { lex := .inTag elem, stk := stk } []
  else if c = '/' then .next { lex := .emptyTag elem, stk := stk } []
  else if c = '>' then .next { lex := .start, stk := elem :: stk } [.StartElement elem]
  else stepAttrName elem stk [] c

/-- A character of the name of a start tag. -/
def stepStartName (stk : List Name) (cs : List Char) (c : Char) : Step :=
  if isNameRead c then .next { lex := .startName (cs ++ [c]), stk := stk } []
  else
    match nsname cs with
    | .error e => fail e
    | .ok elem => stepInTag elem stk c

/-- A character after the name of an end tag: white space, then `>`; the name
must be that of the innermost open element. When the last open element is
closed the sequence of tokens ends. -/
def stepEndSpace (name : Name) (stk : List Name) (c : Char) : Step :=
  if isSpaceByte c then .next { lex := .endSpace name, stk := stk } []
  else if c = '>' then
    match stk with
    | [] => fail .SyntaxError
    | top :: rest =>
      if top.Local ≠ name.Local ∨ top.Space ≠ name.Space then fail .SyntaxError
      else
        match rest with
        | [] => .stop [.EndElement name] .closed
        | _ :: _ => .next { lex := .start, stk := rest } [.EndElement name]
  else fail .SyntaxError

/-- A character of the name of an end tag. -/
def stepEndName (stk : List Name) (cs : List Char) (c : Char) : Step :=
  if isNameRead c then .next { lex := .endName (cs ++ [c]), stk := stk } []
  else
    match nsname cs with
    | .error e => fail e
    | .ok name => stepEndSpace name stk c

/-- A character of the content of a processing instruction, up to `?>`. -/
def stepPIBody (target content : List Char) (b0 : Char) (stk : List Name) (c : Char) : Step :=
  if c = '>' ∧ b0 = '?' then
    if target = ['x', 'm', 'l'] then
      match checkDeclaration content.dropLast with
      | .error e => fail e
      | .ok _ => .next { lex := .start, stk := stk } [.ProcInst]
    else .next { lex := .start, stk := stk } [.ProcInst]
  else .next { lex := .piBody target (content ++ [c]) c, stk := stk } []

/-- A character after the target of a processing instruction. -/
def stepPISpace (target : List Char) (stk : List Name) (c : Char) : Step :=
  if isSpaceByte c then .next { lex := .piSpace target, stk := stk } []
  else stepPIBody target [] (Char.ofNat 0) stk c

/-- A character of the target of a processing instruction. -/
def stepPITarget (stk : List Name) (cs : List Char) (c : Char) : Step :=
  if isNameRead c then .next { lex := .piTarget (cs ++ [c]), stk := stk } []
  else
    match checkName cs with
    | .error e => fail e
    | .ok target => stepPISpace target stk c

/-- One character of input. -/
def step (r : Reader) (c : Char) : Step :=
  match r.lex with
  | .text ctx t => stepText ctx t r.stk c
  | .amp ctx t =>
    if c = '#' then .next { lex := .hash ctx t, stk := r.stk } []
    else stepEntity ctx t r.stk [] c
  | .hash ctx t =>
    if c = 'x' then .next { lex := .digits ctx t 16 [], stk := r.stk } []
    else stepDigits ctx t r.stk 10 [] c
  | .digits ctx t base ds => stepDigits ctx t r.stk base ds c
  | .entity ctx t name => stepEntity ctx t r.stk name c
  | .cdata t => stepCData t r.stk c
  | .markup =>
    if c = '/' then .next { lex := .endName [], stk := r.stk } []
    else if c = '?' then .next { lex := .piTarget [], stk := r.stk } []
    else if c = '!' then .next { lex := .bang, stk := r.stk } []
    else stepStartName r.stk [] c
  | .startName cs => stepStartName r.stk cs c
  | .inTag elem => stepInTag elem r.stk c
  | .emptyTag elem =>
    if c = '>' then
      match r.stk with
      | [] => .stop [.StartElement elem, .EndElement elem] .closed
      | _ :: _ => .next { lex := .start, stk := r.stk } [.StartElement elem, .EndElement elem]
    else fail .SyntaxError
  | .attrName elem cs => stepAttrName elem r.stk cs c
  | .attrEq elem => stepAttrEq elem r.stk c
  | .attrQuote elem =>
    if isSpaceByte c then .next { lex := .attrQuote elem, stk := r.stk } []
    else if c = '"' ∨ c = '\'' then
      .next { lex := .text (.attr elem c) TextBuf.empty, stk := r.stk } []
    else fail .SyntaxError
  | .endName cs => stepEndName r.stk cs c
  | .endSpace name => stepEndSpace name r.stk c
  | .piTarget cs => stepPITarget r.stk cs c
  | .piSpace target => stepPISpace target r.stk c
  | .piBody target content b0 => stepPIBody target content b0 r.stk c
  | .bang =>
    if c = '-' then .next { lex := .bangDash, stk := r.stk } []
    else if c = '[' then .next { lex := .cdataOpen 0, stk := r.stk } []
    else fail .notModelled
  | .bangDash =>
    if c = '-' then .next { lex := .comment (Char.ofNat 0) (Char.ofNat 0), stk := r.stk } []
    else fail .SyntaxError
  | .comment b0 b1 =>
    if b0 = '-' ∧ b1 = '-' then
      if c = '>' then .next { lex := .start, stk := r.stk } [.Comment]
      else fail .SyntaxError
    else .next { lex := .comment b1 c, stk := r.stk } []
  | .cdataOpen i =>
    if ['C', 'D', 'A', 'T', 'A', '['].get? i = some c then
      if i = 5 then .next { lex := .cdata TextBuf.empty, stk := r.stk } []
      else .next { lex := .cdataOpen (i + 1), stk := r.stk } []
    else fail .SyntaxError

/-- The reader on a sequence of characters. -/
def feed : Reader → List Char → Step
  | r, [] => .next r []
  | r, c :: cs =>
    match step r c with
    | .next r' out => (feed r' cs).after out
    | .stop out e => .stop out e

/-- The end of the input: character data that was being read is handed out, and
then the input ends, which is an error inside an element or inside markup. -/
def finish (r : Reader) : List Token × Ending :=
  match r.lex with
  | .text .content t =>
    if checkText t.buf then
      (flushText t.buf, .failed (if r.stk = [] then .EOF else .SyntaxError))
    else ([], .failed .SyntaxError)
  | _ => ([], .failed .SyntaxError)

/-- The tokens that `Decoder.Token` returns on the input, up to the end of the
first element, and how they end. -/
def tokens (input : List Char) : List Token × Ending :=
  match feed { lex := .start, stk := [] } input with
  | .next r out => (out ++ (finish r).1, (finish r).2)
  | .stop out e => (out, e)

/-- The error that `Decoder.Token` returns after the last token. -/
def Ending.error : Ending → XMLError
  | .failed e => e
  | .closed => .EOF

/-- `Decoder.unmarshal` looks for the start element: the tokens before the
first `StartElement` are dropped. -/
def findStart : List Token → Ending → Except XMLError (Name × List Token)
  | [], e => .error e.error
  | .StartElement name :: ts, _ => .ok (name, ts)
  | _ :: ts, e => findStart ts e

/-- The string fields filled so far, by tag. -/
abbrev Fields := List (List Char × List Char)

/-- The field `tag` is set to `value`. -/
def Fields.set (fs : Fields) (tag value : List Char) : Fields :=
  (tag, value) :: fs.filter (fun kv => kv.1 ≠ tag)

/-- The value of the field `tag`: empty when it was never set. -/
def Fields.get (fs : Fields) (tag : List Char) : List Char :=
  (fs.lookup tag).getD []

/-- Where `Decoder.unmarshal` is in the element of a struct whose fields are
strings: in the loop of the struct, in the loop of the string field `tag`
(`depth` counts the open elements inside it, which `Skip` passes over), or in
the `Skip` of an element that matches no field. -/
inductive Mode where
  | struct
  | field (tag data : List Char) (depth : Nat)
  | skip (depth : Nat)
  deriving DecidableEq, Repr

/-- The loop of `Decoder.unmarshal` on a struct whose fields are the strings
tagged `tags`, after the start element: a sub-element whose local name is a tag
fills that field with its character data, any other sub-element is skipped, and
the loop ends at the end element of the struct. -/
def unmarshalLoop (tags : List (List Char)) :
    Mode → Fields → List Token → Ending → Except XMLError Fields
  | _, _, [], e => .error e.error
  | .struct, fs, .StartElement name :: ts, e =>
    if name.Local ∈ tags then unmarshalLoop tags (.field name.Local [] 0) fs ts e
    else unmarshalLoop tags (.skip 0) fs ts e
  | .struct, fs, .EndElement _ :: _, _ => .ok fs
  | .struct, fs, _ :: ts, e => unmarshalLoop tags .struct fs ts e
  | .field tag data depth, fs, .StartElement _ :: ts, e =>
    unmarshalLoop tags (.field tag data (depth + 1)) fs ts e
  | .field tag data 0, fs, .EndElement _ :: ts, e =>
    unmarshalLoop tags .struct (fs.set tag data) ts e
  | .field tag data (depth + 1), fs, .EndElement _ :: ts, e =>
    unmarshalLoop tags (.field tag data depth) fs ts e
  | .field tag data 0, fs, .CharData d :: ts, e =>
    unmarshalLoop tags (.field tag (data ++ d) 0) fs ts e
  | .field tag data depth, fs, _ :: ts, e =>
    unmarshalLoop tags (.field tag data depth) fs ts e
  | .skip depth, fs, .StartElement _ :: ts, e => unmarshalLoop tags (.skip (depth + 1)) fs ts e
  | .skip 0, fs, .EndElement _ :: ts, e => unmarshalLoop tags .struct fs ts e
  | .skip (depth + 1), fs, .EndElement _ :: ts, e => unmarshalLoop tags (.skip depth) fs ts e
  | .skip depth, fs, _ :: ts, e => unmarshalLoop tags (.skip depth) fs ts e

/-- `Decoder.unmarshal` into a `GetIPLocationResult`, on the tokens of the input:
the first element must be `GeoIP` (the `XMLName` tag); `Country` and `State`
take the character data of the sub-element of that name and stay empty when
there is none. -/
def decodeGeoIP (toks : List Token) (e : Ending) : Except XMLError GetIPLocationResult :=
  match findStart toks e with
  | .error err => .error err
  | .ok (root, rest) =>
    if root.Local ≠ ['G', 'e', 'o', 'I', 'P'] then .error .UnmarshalError
    else
      match unmarshalLoop [['C', 'o', 'u', 'n', 't', 'r', 'y'], ['S', 't', 'a', 't', 'e']]
          .struct [] rest e with
      | .error err => .error err
      | .ok fs =>
        .ok { Country := String.mk (fs.get ['C', 'o', 'u', 'n', 't', 'r', 'y'])
              State := String.mk (fs.get ['S', 't', 'a', 't', 'e']) }

/-- The call `xml.Unmarshal([]byte(data), &result)` of `main`, with `result` a
fresh `GetIPLocationResult`. -/
def xmlUnmarshal (data : String) : Except XMLError GetIPLocationResult :=
  decodeGeoIP (tokens data.data).1 (tokens data.data).2

/-- Errors of decoding a response. -/
inductive DecodeError where
  | xml (e : XMLError)
  | fault
  | missingElement (tag : String)
  deriving DecidableEq, Repr

/-- The decode of a response on the tokens of its body: see `Response.Unmarshal`. -/
def decodeResponse (toks : List Token) (e : Ending) : Except DecodeError GetIPLocationResponse :=
  match findStart toks e with
  | .error err => .error (.xml err)
  | .ok (root, rest) =>
    if root.Local = ['F', 'a', 'u', 'l', 't'] then .error .fault
    else
      match unmarshalLoop [['G', 'e', 't', 'I', 'p', 'L', 'o', 'c', 'a', 't', 'i', 'o', 'n',
          'R', 'e', 's', 'u', 'l', 't']] .struct [] rest e with
      | .error err => .error (.xml err)
      | .ok fs =>
        match fs.lookup ['G', 'e', 't', 'I', 'p', 'L', 'o', 'c', 'a', 't', 'i', 'o', 'n',
            'R', 'e', 's', 'u', 'l', 't'] with
        | none => .error (.missingElement "GetIpLocationResult")
        | some v => .ok { GetIPLocationResult := String.mk v }

/-- Modelled from the spec: the decode operation `res.Unmarshal(&r)` of the
Response Envelope, which is not among the sources. "Given a target shape and the
parsed body content, map matching elements by tag name into the shape's fields
(shallow, struct-tag-like correspondence) and fail with `DecodeError` on
structural mismatch (e.g., expected element absent)"; a well-formed SOAP fault
in the body is a `FaultError`. The target shape is `GetIPLocationResponse`, so
the one field is filled from the sub-element `GetIpLocationResult`; its content
is taken as character data and not parsed again. The body is read by the reader
of `encoding/xml`. -/
def Response.Unmarshal (body : String) : Except DecodeError GetIPLocationResponse :=
  decodeResponse (tokens body.data).1 (tokens body.data).2

/-- The character that `xml.EscapeText` stands for: the character itself, or
U+FFFD for a character outside the XML character range. -/
def sanitize (c : Char) : Char :=
  if isInCharacterRange c then c else '\uFFFD'

/-- A text of XML characters. -/
def XMLText (s : String) : Prop :=
  ∀ c ∈ s.data, isInCharacterRange c = true

instance (s : String) : Decidable (XMLText s) := by
  unfold XMLText
  infer_instance

/-- Character data that the reader returns as it stands: XML characters other
than `<`, `&` and carriage return, without the sequence `]]>`. -/
def Verbatim (s : String) : Prop :=
  (∀ c ∈ s.data, c ≠ '<' ∧ c ≠ '&' ∧ c ≠ '\r' ∧ isInCharacterRange c = true)
    ∧ ¬[']', ']', '>'] <:+: s.data

instance (s : String) : Decidable (Verbatim s) := by
  unfold Verbatim
  infer_instance

/-- The response body of the operation around an encoded result. -/
def responseBody (encoded : String) : String :=
  "<GetIpLocationResponse><GetIpLocationResult>" ++ encoded
    ++ "</GetIpLocationResult></GetIpLocationResponse>"

/-- The inner document with the given contents of `Country` and, when present, `State`. -/
def geoIP (country : String) (state : Option String) : String :=
  match state with
  | some t => "<GeoIP><Country>" ++ country ++ "</Country><State>" ++ t ++ "</State></GeoIP>"
  | none => "<GeoIP><Country>" ++ country ++ "</Country></GeoIP>"

/-! ## Parameter names -/

/-- The namespace part of a qualified name `p:local`: what precedes the first
colon, when there is a colon. -/
def qualifier (name : String) : Option String :=
  match name.data.span (· ≠ ':') with
  | (p, _ :: _) => some (String.mk p)
  | (_, []) => none

/-- The namespace map declares the namespace `p`: it has the key `xmlns:p`. -/
def declares (namespaces : List (String × String)) (p : String) : Prop :=
  ("xmlns:" ++ p) ∈ namespaces.map Prod.fst

instance (namespaces : List (String × String)) (p : String) :
    Decidable (declares namespaces p) := by
  unfold declares
  infer_instance

/-- Modelled from the spec: the Parameter Binder of gosoap is not among the
sources. Prefix stripping of a parameter name: the name without its part "up to
and including the colon"; a name without a colon is kept. -/
def localPart (name : String) : String :=
  match name.data.span (· ≠ ':') with
  | (_, _ :: rest) => String.mk rest
  | (_, []) => name

/-- `NameStartChar` of XML 1.0. -/
def isNameStartChar (c : Char) : Bool :=
  let n := c.toNat
  c = ':' || c = '_' || (65 ≤ n && n ≤ 90) || (97 ≤ n && n ≤ 122)
    || (0xC0 ≤ n && n ≤ 0xD6) || (0xD8 ≤ n && n ≤ 0xF6) || (0xF8 ≤ n && n ≤ 0x2FF)
    || (0x370 ≤ n && n ≤ 0x37D) || (0x37F ≤ n && n ≤ 0x1FFF) || (0x200C ≤ n && n ≤ 0x200D)
    || (0x2070 ≤ n && n ≤ 0x218F) || (0x2C00 ≤ n && n ≤ 0x2FEF) || (0x3001 ≤ n && n ≤ 0xD7FF)
    || (0xF900 ≤ n && n ≤ 0xFDCF) || (0xFDF0 ≤ n && n ≤ 0xFFFD) || (0x10000 ≤ n && n ≤ 0xEFFFF)

/-- `NameChar` of XML 1.0. -/
def isNameChar (c : Char) : Bool :=
  let n := c.toNat
  isNameStartChar c || c = '-' || c = '.' || (48 ≤ n && n ≤ 57) || n = 0xB7
    || (0x300 ≤ n && n ≤ 0x36F) || (0x203F ≤ n && n ≤ 0x2040)

/-- A legal XML element name without a colon: a `NameStartChar` followed by
`NameChar`s. -/
def isLegalElementName (name : String) : Bool :=
  match name.data with
  | [] => false
  | c :: cs =>
    (c ≠ ':' && isNameStartChar c) && cs.all (fun d => d ≠ ':' && isNameChar d)

/-- Modelled from the spec: the Parameter Binder of gosoap is not among the
sources. It "fails with `BindError` if a parameter name is empty or malformed
(contains characters illegal in an XML element name after prefix stripping)". -/
def bindError (name : String) : Bool :=
  name.isEmpty || !isLegalElementName (localPart name)

/-- Modelled from the spec: the Parameter Binder of gosoap is not among the
sources. The binder on the parameters in the order in which they are supplied:
the ordered form of the parameters, or no result when a name is a bind error. -/
def bind (entries : List (String × String)) : Option ArrayParams :=
  if entries.any (fun kv => bindError kv.1) then none else some entries

/-! ## Reading a run -/

/-- The fallible step of `main` that an event is the call of, numbered in
program order. -/
def Event.step? : Event → Option Nat
  | .Getwd => some 0
  | .SoapClientWithConfig _ _ _ => some 1
  | .Call _ _ => some 2
  | .ResUnmarshal => some 3
  | .XmlUnmarshal _ => some 4
  | _ => none

/-- The event is a call of `soap.Call`. -/
def Event.isCall : Event → Bool
  | .Call _ _ => true
  | _ => false

/-- The event is a call of `gosoap.SetCustomEnvelope`. -/
def Event.isSetCustomEnvelope : Event → Bool
  | .SetCustomEnvelope _ _ => true
  | _ => false

/-- The event is a use of the envelope template: the construction of the client
or the call. -/
def Event.usesEnvelope : Event → Bool
  | .SoapClientWithConfig _ _ _ => true
  | .Call _ _ => true
  | _ => false

/-- The event is a `log.Fatalf`. -/
def Event.isFatalf : Event → Bool
  | .Fatalf _ _ => true
  | _ => false

/-- The event is a `log.Println`. -/
def Event.isPrintln : Event → Bool
  | .Println _ => true
  | _ => false

/-- The trace of a run that got as far as loading the WSDL in directory `pwd`. -/
def traceClient (pwd : String) : List Event :=
  [.Getwd, .SetCustomEnvelope "soapenv" envelopeNamespaces,
    .SoapClientWithConfig (wsdlURI pwd) client config]

/-- The trace of a run that got as far as the call. -/
def traceCall (pwd : String) : List Event :=
  traceClient pwd ++ [.Call "sch:GetIpLocation" params]

/-- The trace of a run that got as far as decoding the response. -/
def traceUnmarshal (pwd : String) : List Event :=
  traceCall pwd ++ [.ResUnmarshal]

/-- The trace of a run that got as far as decoding the inner document of `r`. -/
def traceXml (pwd : String) (r : GetIPLocationResponse) : List Event :=
  traceUnmarshal pwd ++ [.XmlUnmarshal r.GetIPLocationResult]

/-- The run `r` stopped at the fallible step `k` with the error `e`: it ended in
`log.Fatalf(format, e)` with exit code 1, that was its only `log.Fatalf`, step
`k` was called exactly once, and no later step was called. -/
def StopsAt (r : Run) (k : Nat) (format e : String) : Prop :=
  r.exitCode = 1 ∧ r.events.getLast? = some (.Fatalf format (.err e))
    ∧ r.events.countP Event.isFatalf = 1
    ∧ r.events.countP (fun ev => ev.step? = some k) = 1
    ∧ ∀ ev ∈ r.events, ∀ j, ev.step? = some j → j ≤ k

/-- A world in which the call fails: the endpoint refuses the connection. -/
def worldCallFails : World Unit Unit :=
  { Getwd := .ok "/home/gopher/gosoap/example"
    SoapClientWithConfig := fun _ _ _ => .ok ()
    Call := fun _ _ _ => .error "connection refused"
    Unmarshal := fun _ => .ok { GetIPLocationResult := "" }
    xmlUnmarshal := fun _ => .ok { Country := "", State := "" } }

/-- The response body of the spec's example: the result is the escaped inner
document with `Country` US. -/
def specBody : String :=
  "<GetIpLocationResponse><GetIpLocationResult>&lt;GeoIP&gt;&lt;Country&gt;US&lt;/Country&gt;&lt;/GeoIP&gt;</GetIpLocationResult></GetIpLocationResponse>"

/-- A world in which every step succeeds and the country is US: the call is
answered with the body of the spec's example, and the two decodes give the inner
string and its country. -/
def worldUS : World Unit String :=
  { Getwd := .ok "/home/gopher/gosoap/example"
    SoapClientWithConfig := fun _ _ _ => .ok ()
    Call := fun _ _ _ => .ok specBody
    Unmarshal := fun _ => .ok { GetIPLocationResult := "<GeoIP><Country>US</Country></GeoIP>" }
    xmlUnmarshal := fun _ => .ok { Country := "US", State := "" } }

/-- A world in which every step succeeds and the country is spelled `us`. -/
def worldLowercase : World Unit String :=
  { Getwd := .ok "/home/gopher/gosoap/example"
    SoapClientWithConfig := fun _ _ _ => .ok ()
    Call := fun _ _ _ => .ok
      "<GetIpLocationResponse><GetIpLocationResult>&lt;GeoIP&gt;&lt;Country&gt;us&lt;/Country&gt;&lt;State&gt;CA&lt;/State&gt;&lt;/GeoIP&gt;</GetIpLocationResult></GetIpLocationResponse>"
    Unmarshal := fun _ => .ok
      { GetIPLocationResult := "<GeoIP><Country>us</Country><State>CA</State></GeoIP>" }
    xmlUnmarshal := fun _ => .ok { Country := "us", State := "CA" } }

/-- Every fallible step of `main` succeeds in the world `w`, the two decodes
giving `r` and then `result`. -/
def Succeeds {σ ρ : Type} (w : World σ ρ) (r : GetIPLocationResponse)
    (result : GetIPLocationResult) : Prop :=
  ∃ pwd soap res, w.Getwd = .ok pwd
    ∧ w.SoapClientWithConfig (wsdlURI pwd) client config = .ok soap
    ∧ w.Call soap "sch:GetIpLocation" params = .ok res
    ∧ w.Unmarshal res = .ok r
    ∧ w.xmlUnmarshal r.GetIPLocationResult = .ok result

/-! ## The runs of `main` -/

/-- The possible outcomes of the collaborators, in program order, and the run of
`main` in each. -/
inductive Outcome {σ ρ : Type} (w : World σ ρ) : Prop where
  | getwdFailed (e : String) (h₀ : w.Getwd = .error e)
      (hrun : main w = fatalf [.Getwd] "error getting current working directory: %s" (.err e))
  | clientFailed (pwd e : String) (h₀ : w.Getwd = .ok pwd)
      (h₁ : w.SoapClientWithConfig (wsdlURI pwd) client config = .error e)
      (hrun : main w = fatalf (traceClient pwd) "SoapClient error: %s" (.err e))
  | callFailed (pwd : String) (soap : σ) (e : String) (h₀ : w.Getwd = .ok pwd)
      (h₁ : w.SoapClientWithConfig (wsdlURI pwd) client config = .ok soap)
      (h₂ : w.Call soap "sch:GetIpLocation" params = .error e)
      (hrun : main w = fatalf (traceCall pwd) "Call error: %s" (.err e))
  | unmarshalFailed (pwd : String) (soap : σ) (res : ρ) (e : String) (h₀ : w.Getwd = .ok pwd)
      (h₁ : w.SoapClientWithConfig (wsdlURI pwd) client config = .ok soap)
      (h₂ : w.Call soap "sch:GetIpLocation" params = .ok res)
      (h₃ : w.Unmarshal res = .error e)
      (hrun : main w = fatalf (traceUnmarshal pwd) "Error parsing response: %s" (.err e))
  | xmlFailed (pwd : String) (soap : σ) (res : ρ) (r : GetIPLocationResponse) (e : String)
      (h₀ : w.Getwd = .ok pwd)
      (h₁ : w.SoapClientWithConfig (wsdlURI pwd) client config = .ok soap)
      (h₂ : w.Call soap "sch:GetIpLocation" params = .ok res)
      (h₃ : w.Unmarshal res = .ok r)
      (h₄ : w.xmlUnmarshal r.GetIPLocationResult = .error e)
      (hrun : main w = fatalf (traceXml pwd r) "xml.Unmarshal error: %s" (.err e))
  | otherCountry (pwd : String) (soap : σ) (res : ρ) (r : GetIPLocationResponse)
      (result : GetIPLocationResult) (h₀ : w.Getwd = .ok pwd)
      (h₁ : w.SoapClientWithConfig (wsdlURI pwd) client config = .ok soap)
      (h₂ : w.Call soap "sch:GetIpLocation" params = .ok res)
      (h₃ : w.Unmarshal res = .ok r)
      (h₄ : w.xmlUnmarshal r.GetIPLocationResult = .ok result)
      (h₅ : result.Country ≠ "US")
      (hrun : main w = fatalf (traceXml pwd r) "error: %+v" (.response r))
  | done (pwd : String) (soap : σ) (res : ρ) (r : GetIPLocationResponse)
      (result : GetIPLocationResult) (h₀ : w.Getwd = .ok pwd)
      (h₁ : w.SoapClientWithConfig (wsdlURI pwd) client config = .ok soap)
      (h₂ : w.Call soap "sch:GetIpLocation" params = .ok res)
      (h₃ : w.Unmarshal res = .ok r)
      (h₄ : w.xmlUnmarshal r.GetIPLocationResult = .ok result)
      (h₅ : result.Country = "US")
      (hrun : main w = { events := traceXml pwd r ++ [.Println ["Country: ", result.Country],
          .Println ["State: ", result.State]], exitCode := 0 })

theorem main_outcome {σ ρ : Type} (w : World σ ρ) : Outcome w := by
  cases h₀ : w.Getwd with
  | error e => exact .getwdFailed e h₀ (by simp [main, h₀])
  | ok pwd =>
    cases h₁ : w.SoapClientWithConfig (wsdlURI pwd) client config with
    | error e => exact .clientFailed pwd e h₀ h₁ (by simp [main, h₀, h₁, traceClient])
    | ok soap =>
      cases h₂ : w.Call soap "sch:GetIpLocation" params with
      | error e =>
        exact .callFailed pwd soap e h₀ h₁ h₂ (by simp [main, h₀, h₁, h₂, traceCall, traceClient])
      | ok res =>
        cases h₃ : w.Unmarshal res with
        | error e =>
          exact .unmarshalFailed pwd soap res e h₀ h₁ h₂ h₃
            (by simp [main, h₀, h₁, h₂, h₃, traceUnmarshal, traceCall, traceClient])
        | ok r =>
          cases h₄ : w.xmlUnmarshal r.GetIPLocationResult with
          | error e =>
            exact .xmlFailed pwd soap res r e h₀ h₁ h₂ h₃ h₄
              (by simp [main, h₀, h₁, h₂, h₃, h₄, traceXml, traceUnmarshal, traceCall,
                traceClient])
          | ok result =>
            by_cases h₅ : result.Country = "US"
            · exact .done pwd soap res r result h₀ h₁ h₂ h₃ h₄ h₅
                (by simp [main, h₀, h₁, h₂, h₃, h₄, h₅, traceXml, traceUnmarshal, traceCall,
                  traceClient])
            · exact .otherCountry pwd soap res r result h₀ h₁ h₂ h₃ h₄ h₅
                (by simp [main, h₀, h₁, h₂, h₃, h₄, h₅, traceXml, traceUnmarshal, traceCall,
                  traceClient])

/-! ## The reader on escaped and on verbatim text -/

theorem after_nil (s : Step) : s.after [] = s := by
  cases s <;> simp [Step.after]

theorem after_after (o₁ o₂ : List Token) (s : Step) :
    (s.after o₂).after o₁ = s.after (o₁ ++ o₂) := by
  cases s <;> simp [Step.after, List.append_assoc]

theorem feed_next {r r' : Reader} {c : Char} {o : List Token} (cs : List Char)
    (h : step r c = .next r' o) : feed r (c :: cs) = (feed r' cs).after o := by
  simp [feed, h]

theorem feed_silent {r r' : Reader} {c : Char} (cs : List Char)
    (h : step r c = .next r' []) : feed r (c :: cs) = feed r' cs := by
  rw [feed_next cs h, after_nil]

theorem feed_append {r r' : Reader} {a : List Char} {o : List Token} (b : List Char)
    (h : feed r a = .next r' o) : feed r (a ++ b) = (feed r' b).after o := by
  induction a generalizing r o with
  | nil =>
    simp only [feed, Step.next.injEq] at h
    obtain ⟨rfl, rfl⟩ := h
    simp [after_nil]
  | cons c cs ih =>
    simp only [feed, List.cons_append] at h ⊢
    cases hs : step r c with
    | stop out e => simp [hs] at h
    | next r₁ o₁ =>
      simp only [hs] at h ⊢
      cases hf : feed r₁ cs with
      | stop out e => simp [hf, Step.after] at h
      | next r₂ o₂ =>
        simp only [hf, Step.after, Step.next.injEq] at h
        obtain ⟨rfl, rfl⟩ := h
        rw [show cs.append b = cs ++ b from rfl, ih hf, after_after]

theorem feed_amp (t : TextBuf) (stk : List Name) (cs : List Char) :
    feed { lex := .text .content t, stk := stk } ('&' :: cs)
      = feed { lex := .amp .content t, stk := stk } cs :=
  feed_silent cs rfl

theorem feed_hash (ctx : Ctx) (t : TextBuf) (stk : List Name) (cs : List Char) :
    feed { lex := .amp ctx t, stk := stk } ('#' :: cs)
      = feed { lex := .hash ctx t, stk := stk } cs :=
  feed_silent cs rfl

theorem feed_hex (ctx : Ctx) (t : TextBuf) (stk : List Name) (cs : List Char) :
    feed { lex := .hash ctx t, stk := stk } ('x' :: cs)
      = feed { lex := .digits ctx t 16 [], stk := stk } cs :=
  feed_silent cs rfl

theorem feed_hash_digit (ctx : Ctx) (t : TextBuf) (stk : List Name) (c : Char) (cs : List Char)
    (h₁ : c ≠ 'x') (h₂ : (digitValue 10 c).isSome = true) :
    feed { lex := .hash ctx t, stk := stk } (c :: cs)
      = feed { lex := .digits ctx t 10 [c], stk := stk } cs :=
  feed_silent cs (by simp [step, stepDigits, h₁, h₂])

theorem feed_digit (ctx : Ctx) (t : TextBuf) (stk : List Name) (base : Nat) (ds : List Char)
    (c : Char) (cs : List Char) (h : (digitValue base c).isSome = true) :
    feed { lex := .digits ctx t base ds, stk := stk } (c :: cs)
      = feed { lex := .digits ctx t base (ds ++ [c]), stk := stk } cs :=
  feed_silent cs (by simp [step, stepDigits, h])

theorem feed_digits_end (ctx : Ctx) (t : TextBuf) (stk : List Name) (base : Nat)
    (ds : List Char) (ch : Char) (cs : List Char) (h₀ : (digitValue base ';').isSome = false)
    (h : charRef base ds = some ch) :
    feed { lex := .digits ctx t base ds, stk := stk } (';' :: cs)
      = feed { lex := .text ctx (t.reference ch), stk := stk } cs :=
  feed_silent cs (by simp [step, stepDigits, h₀, h])

theorem feed_amp_name (ctx : Ctx) (t : TextBuf) (stk : List Name) (c : Char) (cs : List Char)
    (h₁ : c ≠ '#') (h₂ : isNameRead c = true) :
    feed { lex := .amp ctx t, stk := stk } (c :: cs)
      = feed { lex := .entity ctx t [c], stk := stk } cs :=
  feed_silent cs (by simp [step, stepEntity, h₁, h₂])

theorem feed_entity_char (ctx : Ctx) (t : TextBuf) (stk : List Name) (name : List Char)
    (c : Char) (cs : List Char) (h : isNameRead c = true) :
    feed { lex := .entity ctx t name, stk := stk } (c :: cs)
      = feed { lex := .entity ctx t (name ++ [c]), stk := stk } cs :=
  feed_silent cs (by simp [step, stepEntity, h])

theorem feed_entity_end (ctx : Ctx) (t : TextBuf) (stk : List Name) (name : List Char)
    (ch : Char) (cs : List Char) (h : entity name = some ch) :
    feed { lex := .entity ctx t name, stk := stk } (';' :: cs)
      = feed { lex := .text ctx (t.reference ch), stk := stk } cs :=
  feed_silent cs (by simp [step, stepEntity, h, isNameRead, isNameByte])

theorem feed_write (t : TextBuf) (stk : List Name) (c : Char) (cs : List Char)
    (h₁ : c ≠ '<') (h₂ : c ≠ '&') (h₃ : ¬(c = '>' ∧ t.b0 = ']' ∧ t.b1 = ']')) :
    feed { lex := .text .content t, stk := stk } (c :: cs)
      = feed { lex := .text .content (t.write c), stk := stk } cs :=
  feed_silent cs (by simp only [step, stepText, h₁, h₂, h₃, if_false])

theorem feed_escapeRune (c : Char) (t : TextBuf) (stk : List Name) (cs : List Char) :
    ∃ t' : TextBuf, t'.buf = t.buf ++ [sanitize c]
      ∧ feed { lex := .text .content t, stk := stk } (escapeRune c ++ cs)
        = feed { lex := .text .content t', stk := stk } cs := by
  unfold escapeRune
  split_ifs with h1 h2 h3 h4 h5 h6 h7 h8 h9
  · subst h1
    refine ⟨t.reference '"', rfl, ?_⟩
    simp only [List.cons_append, List.nil_append]
    rw [feed_amp, feed_hash, feed_hash_digit _ _ _ '3' _ (by decide) (by decide),
      feed_digit _ _ _ _ _ '4' _ (by decide), feed_digits_end _ _ _ _ _ '"' _ (by decide)]
    rfl
  · subst h2
    refine ⟨t.reference '\'', rfl, ?_⟩
    simp only [List.cons_append, List.nil_append]
    rw [feed_amp, feed_hash, feed_hash_digit _ _ _ '3' _ (by decide) (by decide),
      feed_digit _ _ _ _ _ '9' _ (by decide), feed_digits_end _ _ _ _ _ '\'' _ (by decide)]
    rfl
  · subst h3
    refine ⟨t.reference '&', rfl, ?_⟩
    simp only [List.cons_append, List.nil_append]
    rw [feed_amp, feed_amp_name _ _ _ 'a' _ (by decide) (by decide),
      feed_entity_char _ _ _ _ 'm' _ (by decide), feed_entity_char _ _ _ _ 'p' _ (by decide),
      feed_entity_end _ _ _ _ '&']
    rfl
  · subst h4
    refine ⟨t.reference '<', rfl, ?_⟩
    simp only [List.cons_append, List.nil_append]
    rw [feed_amp, feed_amp_name _ _ _ 'l' _ (by decide) (by decide),
      feed_entity_char _ _ _ _ 't' _ (by decide), feed_entity_end _ _ _ _ '<']
    rfl
  · subst h5
    refine ⟨t.reference '>', rfl, ?_⟩
    simp only [List.cons_append, List.nil_append]
    rw [feed_amp, feed_amp_name _ _ _ 'g' _ (by decide) (by decide),
      feed_entity_char _ _ _ _ 't' _ (by decide), feed_entity_end _ _ _ _ '>']
    rfl
  · subst h6
    refine ⟨t.reference '\t', rfl, ?_⟩
    simp only [List.cons_append, List.nil_append]
    rw [feed_amp, feed_hash, feed_hex, feed_digit _ _ _ _ _ '9' _ (by decide),
      feed_digits_end _ _ _ _ _ '\t' _ (by decide)]
    rfl
  · subst h7
    refine ⟨t.reference '\n', rfl, ?_⟩
    simp only [List.cons_append, List.nil_append]
    rw [feed_amp, feed_hash, feed_hex, feed_digit _ _ _ _ _ 'A' _ (by decide),
      feed_digits_end _ _ _ _ _ '\n' _ (by decide)]
    rfl
  · subst h8
    refine ⟨t.reference '\r', rfl, ?_⟩
    simp only [List.cons_append, List.nil_append]
    rw [feed_amp, feed_hash, feed_hex, feed_digit _ _ _ _ _ 'D' _ (by decide),
      feed_digits_end _ _ _ _ _ '\r' _ (by decide)]
    rfl
  · refine ⟨t.write c, ?_, ?_⟩
    · simp [TextBuf.write, sanitize, h8, h7, h9]
    · simp only [List.cons_append, List.nil_append]
      exact feed_write t stk c cs h4 h3 (fun h => h5 h.1)
  · refine ⟨t.write '\uFFFD', ?_, ?_⟩
    · simp [TextBuf.write, sanitize, h9]
    · simp only [List.cons_append, List.nil_append]
      exact feed_write t stk '\uFFFD' cs (by decide) (by decide) (fun h => absurd h.1 (by decide))

theorem feed_escapeChars (s : List Char) (t : TextBuf) (stk : List Name) (cs : List Char) :
    ∃ t' : TextBuf, t'.buf = t.buf ++ s.map sanitize
      ∧ feed { lex := .text .content t, stk := stk } (escapeChars s ++ cs)
        = feed { lex := .text .content t', stk := stk } cs := by
  induction s generalizing t with
  | nil => exact ⟨t, by simp, by simp [escapeChars]⟩
  | cons c s ih =>
    obtain ⟨t₁, hb₁, hf₁⟩ := feed_escapeRune c t stk (escapeChars s ++ cs)
    obtain ⟨t₂, hb₂, hf₂⟩ := ih t₁
    refine ⟨t₂, by simp [hb₂, hb₁], ?_⟩
    simp only [escapeChars, List.append_assoc]
    rw [hf₁, hf₂]


theorem feed_lt (t : TextBuf) (stk : List Name) (cs : List Char) (h : checkText t.buf = true) :
    feed { lex := .text .content t, stk := stk } ('<' :: cs)
      = (feed { lex := .markup, stk := stk } cs).after (flushText t.buf) :=
  feed_next cs (by simp [step, stepText, h])

theorem feed_verbatim (s : List Char) (t : TextBuf) (stk : List Name) (cs : List Char)
    (h : ∀ c ∈ s, c ≠ '<' ∧ c ≠ '&' ∧ c ≠ '\r') (ht : t.b1 ≠ '\r')
    (hcd : ¬[']', ']', '>'] <:+: t.b0 :: t.b1 :: s) :
    ∃ t' : TextBuf, t'.buf = t.buf ++ s
      ∧ feed { lex := .text .content t, stk := stk } (s ++ cs)
        = feed { lex := .text .content t', stk := stk } cs := by
  induction s generalizing t with
  | nil => exact ⟨t, by simp, by simp⟩
  | cons c s ih =>
    obtain ⟨h₁, h₂, h₃⟩ := h c (by simp)
    have hgt : ¬(c = '>' ∧ t.b0 = ']' ∧ t.b1 = ']') := by
      rintro ⟨rfl, h0, h1⟩
      apply hcd
      rw [h0, h1]
      exact (List.prefix_append _ s).isInfix
    have hw : (t.write c).buf = t.buf ++ [c] := by
      simp [TextBuf.write, h₃, ht]
    obtain ⟨t', hb, hf⟩ := ih (t.write c) (fun d hd => h d (by simp [hd])) h₃
      (fun hin => hcd (List.infix_cons hin))
    refine ⟨t', by simp [hb, hw], ?_⟩
    rw [List.cons_append, feed_write t stk c _ h₁ h₂ hgt, hf]

theorem not_infix_empty (s : List Char) (h : ¬[']', ']', '>'] <:+: s) :
    ¬[']', ']', '>'] <:+: TextBuf.empty.b0 :: TextBuf.empty.b1 :: s := by
  intro hin
  rcases List.infix_cons_iff.1 hin with hp | hin'
  · simp [TextBuf.empty, List.cons_prefix_cons] at hp
  · rcases List.infix_cons_iff.1 hin' with hp | hin''
    · simp [TextBuf.empty, List.cons_prefix_cons] at hp
    · exact h hin''


theorem isInCharacterRange_sanitize (c : Char) : isInCharacterRange (sanitize c) = true := by
  unfold sanitize
  split_ifs with h
  · exact h
  · decide

theorem checkText_sanitize (s : List Char) : checkText (s.map sanitize) = true := by
  simp [checkText, isInCharacterRange_sanitize]

theorem map_sanitize (s : List Char) (h : ∀ c ∈ s, isInCharacterRange c = true) :
    s.map sanitize = s := by
  induction s with
  | nil => rfl
  | cons c s ih =>
    simp only [List.map_cons, List.cons.injEq]
    exact ⟨by simp [sanitize, h c (by simp)], ih (fun d hd => h d (by simp [hd]))⟩

/-- The tokens of an input whose one piece of escaped text stands between the
markup `pre` and the markup `'<' :: post` that closes the first element. -/
theorem tokens_escaped (pre post : List Char) (stk : List Name) (o₁ o₂ : List Token)
    (h₁ : feed { lex := .start, stk := [] } pre = .next { lex := .start, stk := stk } o₁)
    (h₂ : feed { lex := .markup, stk := stk } post = .stop o₂ .closed) (s : List Char) :
    tokens (pre ++ escapeChars s ++ '<' :: post)
      = (o₁ ++ flushText (s.map sanitize) ++ o₂, .closed) := by
  obtain ⟨t, hb, hf⟩ := feed_escapeChars s TextBuf.empty stk ('<' :: post)
  have hc : checkText t.buf = true := by
    rw [hb]
    simpa [TextBuf.empty] using checkText_sanitize s
  have hbuf : t.buf = s.map sanitize := by simpa [TextBuf.empty] using hb
  unfold tokens
  rw [List.append_assoc, feed_append _ h₁]
  change (match Step.after o₁ (feed { lex := .text .content TextBuf.empty, stk := stk }
      (escapeChars s ++ '<' :: post)) with
    | .next r out => (out ++ (finish r).1, (finish r).2)
    | .stop out e => (out, e)) = _
  rw [hf, feed_lt t stk post hc, h₂, hbuf]
  simp [Step.after]

/-- The tokens of an input whose two pieces of verbatim text stand between
markup. -/
theorem tokens_verbatim₂ (pre mid post : List Char) (stk₁ stk₂ : List Name)
    (o₁ o₂ o₃ : List Token)
    (h₁ : feed { lex := .start, stk := [] } pre = .next { lex := .start, stk := stk₁ } o₁)
    (h₂ : feed { lex := .markup, stk := stk₁ } mid = .next { lex := .start, stk := stk₂ } o₂)
    (h₃ : feed { lex := .markup, stk := stk₂ } post = .stop o₃ .closed) (c t : List Char)
    (hc : Verbatim (String.mk c)) (ht : Verbatim (String.mk t)) :
    tokens (pre ++ c ++ '<' :: mid ++ t ++ '<' :: post)
      = (o₁ ++ flushText c ++ o₂ ++ flushText t ++ o₃, .closed) := by
  obtain ⟨t₁, hb₁, hf₁⟩ := feed_verbatim c TextBuf.empty stk₁ ('<' :: (mid ++ (t ++ '<' :: post)))
    (fun d hd => ⟨(hc.1 d hd).1, (hc.1 d hd).2.1, (hc.1 d hd).2.2.1⟩) (by decide)
    (not_infix_empty c hc.2)
  obtain ⟨t₂, hb₂, hf₂⟩ := feed_verbatim t TextBuf.empty stk₂ ('<' :: post)
    (fun d hd => ⟨(ht.1 d hd).1, (ht.1 d hd).2.1, (ht.1 d hd).2.2.1⟩) (by decide)
    (not_infix_empty t ht.2)
  have hbuf₁ : t₁.buf = c := by simpa [TextBuf.empty] using hb₁
  have hbuf₂ : t₂.buf = t := by simpa [TextBuf.empty] using hb₂
  have hc₁ : checkText t₁.buf = true := by
    rw [hbuf₁]
    simpa [checkText] using fun d hd => (hc.1 d hd).2.2.2
  have hc₂ : checkText t₂.buf = true := by
    rw [hbuf₂]
    simpa [checkText] using fun d hd => (ht.1 d hd).2.2.2
  unfold tokens
  have e : pre ++ c ++ '<' :: mid ++ t ++ '<' :: post
      = pre ++ (c ++ '<' :: (mid ++ (t ++ '<' :: post))) := by simp
  rw [e, feed_append _ h₁]
  change (match Step.after o₁ (feed { lex := .text .content TextBuf.empty, stk := stk₁ }
      (c ++ '<' :: (mid ++ (t ++ '<' :: post)))) with
    | .next r out => (out ++ (finish r).1, (finish r).2)
    | .stop out e => (out, e)) = _
  rw [hf₁, feed_lt t₁ stk₁ _ hc₁, feed_append _ h₂]
  change (match Step.after o₁ (Step.after (flushText t₁.buf) (Step.after o₂
      (feed { lex := .text .content TextBuf.empty, stk := stk₂ } (t ++ '<' :: post)))) with
    | .next r out => (out ++ (finish r).1, (finish r).2)
    | .stop out e => (out, e)) = _
  rw [hf₂, feed_lt t₂ stk₂ _ hc₂, h₃, hbuf₁, hbuf₂]
  simp [Step.after]

/-- The tokens of an input whose one piece of verbatim text stands between
markup. -/
theorem tokens_verbatim₁ (pre post : List Char) (stk : List Name) (o₁ o₂ : List Token)
    (h₁ : feed { lex := .start, stk := [] } pre = .next { lex := .start, stk := stk } o₁)
    (h₂ : feed { lex := .markup, stk := stk } post = .stop o₂ .closed) (c : List Char)
    (hc : Verbatim (String.mk c)) :
    tokens (pre ++ c ++ '<' :: post) = (o₁ ++ flushText c ++ o₂, .closed) := by
  obtain ⟨t₁, hb₁, hf₁⟩ := feed_verbatim c TextBuf.empty stk ('<' :: post)
    (fun d hd => ⟨(hc.1 d hd).1, (hc.1 d hd).2.1, (hc.1 d hd).2.2.1⟩) (by decide)
    (not_infix_empty c hc.2)
  have hbuf₁ : t₁.buf = c := by simpa [TextBuf.empty] using hb₁
  have hc₁ : checkText t₁.buf = true := by
    rw [hbuf₁]
    simpa [checkText] using fun d hd => (hc.1 d hd).2.2.2
  unfold tokens
  rw [List.append_assoc, feed_append _ h₁]
  change (match Step.after o₁ (feed { lex := .text .content TextBuf.empty, stk := stk }
      (c ++ '<' :: post)) with
    | .next r out => (out ++ (finish r).1, (finish r).2)
    | .stop out e => (out, e)) = _
  rw [hf₁, feed_lt t₁ stk _ hc₁, h₂, hbuf₁]
  simp [Step.after]


/-! ## Control flow of `main` -/

theorem events_shape {σ ρ : Type} (w : World σ ρ) :
    (∃ e, (main w).events = [.Getwd, .Fatalf "error getting current working directory: %s" e])
    ∨ ∃ rest, (main w).events
        = .Getwd :: .SetCustomEnvelope "soapenv" envelopeNamespaces :: rest
      ∧ ∀ ev ∈ rest, ev.isSetCustomEnvelope = false := by
  rcases main_outcome w with ⟨e, -, hrun⟩ | ⟨pwd, e, -, -, hrun⟩ | ⟨pwd, _, e, -, -, -, hrun⟩
    | ⟨pwd, _, _, e, -, -, -, -, hrun⟩ | ⟨pwd, _, _, r, e, -, -, -, -, -, hrun⟩
    | ⟨pwd, _, _, r, _, -, -, -, -, -, -, hrun⟩ | ⟨pwd, _, _, r, _, -, -, -, -, -, -, hrun⟩
  · exact .inl ⟨.err e, by simp [hrun, fatalf]⟩
  all_goals
    refine .inr ⟨_, by simp only [hrun, fatalf, traceXml, traceUnmarshal, traceCall, traceClient,
      List.cons_append, List.nil_append, List.append_assoc]; rfl, ?_⟩
    simp [Event.isSetCustomEnvelope]

theorem count_around_use (rest pre post : List Event) (e : Event)
    (h : Event.Getwd :: .SetCustomEnvelope "soapenv" envelopeNamespaces :: rest
      = pre ++ e :: post)
    (he : e.usesEnvelope = true) (hrest : ∀ ev ∈ rest, ev.isSetCustomEnvelope = false) :
    pre.countP Event.isSetCustomEnvelope = 1 ∧ post.countP Event.isSetCustomEnvelope = 0 := by
  cases pre with
  | nil =>
    simp only [List.nil_append, List.cons.injEq] at h
    rw [← h.1] at he
    simp [Event.usesEnvelope] at he
  | cons a pre =>
    cases pre with
    | nil =>
      simp only [List.cons_append, List.nil_append, List.cons.injEq] at h
      rw [← h.2.1] at he
      simp [Event.usesEnvelope] at he
    | cons b pre =>
      simp only [List.cons_append, List.cons.injEq] at h
      obtain ⟨rfl, rfl, rfl⟩ := h
      have hpre : pre.countP Event.isSetCustomEnvelope = 0 := by
        rw [List.countP_eq_zero]
        intro ev hev
        simp [hrest ev (by simp [hev])]
      have hpost : post.countP Event.isSetCustomEnvelope = 0 := by
        rw [List.countP_eq_zero]
        intro ev hev
        simp [hrest ev (by simp [hev])]
      simp [List.countP_cons, Event.isSetCustomEnvelope, hpre, hpost]

/-- C2: errors are propagated, never retried or skipped over. For each of the
five fallible steps of `main`, in order (`os.Getwd`, `gosoap.SoapClientWithConfig`,
`soap.Call`, `res.Unmarshal`, `xml.Unmarshal`): when the steps before it succeed
and it returns an error, the run ends in the `log.Fatalf` of that step with exit
code 1, the step was called once, and no later step was called. -/
theorem main_stops_at_first_error {σ ρ : Type} (w : World σ ρ) :
    (∀ e, w.Getwd = .error e →
      StopsAt (main w) 0 "error getting current working directory: %s" e)
    ∧ (∀ pwd e, w.Getwd = .ok pwd →
      w.SoapClientWithConfig (wsdlURI pwd) client config = .error e →
      StopsAt (main w) 1 "SoapClient error: %s" e)
    ∧ (∀ pwd soap e, w.Getwd = .ok pwd →
      w.SoapClientWithConfig (wsdlURI pwd) client config = .ok soap →
      w.Call soap "sch:GetIpLocation" params = .error e →
      StopsAt (main w) 2 "Call error: %s" e)
    ∧ (∀ pwd soap res e, w.Getwd = .ok pwd →
      w.SoapClientWithConfig (wsdlURI pwd) client config = .ok soap →
      w.Call soap "sch:GetIpLocation" params = .ok res →
      w.Unmarshal res = .error e →
      StopsAt (main w) 3 "Error parsing response: %s" e)
    ∧ (∀ pwd soap res r e, w.Getwd = .ok pwd →
      w.SoapClientWithConfig (wsdlURI pwd) client config = .ok soap →
      w.Call soap "sch:GetIpLocation" params = .ok res →
      w.Unmarshal res = .ok r →
      w.xmlUnmarshal r.GetIPLocationResult = .error e →
      StopsAt (main w) 4 "xml.Unmarshal error: %s" e) := by
  refine ⟨?_, ?_, ?_, ?_, ?_⟩
  · intro e h₀
    simp [StopsAt, main, h₀, fatalf, Event.step?, Event.isFatalf, List.countP_cons]
  · intro pwd e h₀ h₁
    simp [StopsAt, main, h₀, h₁, fatalf, Event.step?, Event.isFatalf, List.countP_cons]
  · intro pwd soap e h₀ h₁ h₂
    simp [StopsAt, main, h₀, h₁, h₂, fatalf, Event.step?, Event.isFatalf, List.countP_cons]
  · intro pwd soap res e h₀ h₁ h₂ h₃
    simp [StopsAt, main, h₀, h₁, h₂, h₃, fatalf, Event.step?, Event.isFatalf, List.countP_cons]
  · intro pwd soap res r e h₀ h₁ h₂ h₃ h₄
    simp [StopsAt, main, h₀, h₁, h₂, h₃, h₄, fatalf, Event.step?, Event.isFatalf,
      List.countP_cons]

/-- Witness of C2: in a world where the call fails, the run stops at the call. -/
theorem main_stops_at_first_error_witness :
    StopsAt (main worldCallFails) 2 "Call error: %s" "connection refused" :=
  (main_stops_at_first_error worldCallFails).2.2.1 "/home/gopher/gosoap/example" ()
    "connection refused" rfl rfl rfl

theorem client_argument {σ ρ : Type} (w : World σ ρ) (wsdl : String) (c : HTTPClient)
    (cfg : Config) (h : Event.SoapClientWithConfig wsdl c cfg ∈ (main w).events) :
    c = client ∧ cfg = config ∧ ∃ pwd, w.Getwd = .ok pwd ∧ wsdl = wsdlURI pwd := by
  rcases main_outcome w with ⟨e, -, hrun⟩ | ⟨pwd, e, h₀, -, hrun⟩ | ⟨pwd, _, e, h₀, -, -, hrun⟩
    | ⟨pwd, _, _, e, h₀, -, -, -, hrun⟩ | ⟨pwd, _, _, r, e, h₀, -, -, -, -, hrun⟩
    | ⟨pwd, _, _, r, _, h₀, -, -, -, -, -, hrun⟩ | ⟨pwd, _, _, r, _, h₀, -, -, -, -, -, hrun⟩
  · simp [hrun, fatalf] at h
  all_goals
    simp [hrun, fatalf, traceXml, traceUnmarshal, traceCall, traceClient] at h
    exact ⟨h.2.1, h.2.2, pwd, h₀, h.1⟩

theorem call_argument {σ ρ : Type} (w : World σ ρ) (op : String) (ps : Params)
    (h : Event.Call op ps ∈ (main w).events) : op = "sch:GetIpLocation" ∧ ps = params := by
  rcases main_outcome w with ⟨e, -, hrun⟩ | ⟨pwd, e, h₀, -, hrun⟩ | ⟨pwd, _, e, h₀, -, -, hrun⟩
    | ⟨pwd, _, _, e, h₀, -, -, -, hrun⟩ | ⟨pwd, _, _, r, e, h₀, -, -, -, -, hrun⟩
    | ⟨pwd, _, _, r, _, h₀, -, -, -, -, -, hrun⟩ | ⟨pwd, _, _, r, _, h₀, -, -, -, -, -, hrun⟩
  all_goals
    simp [hrun, fatalf, traceXml, traceUnmarshal, traceCall, traceClient] at h
  all_goals exact h

theorem envelope_argument {σ ρ : Type} (w : World σ ρ) (root : String)
    (ns : List (String × String)) (h : Event.SetCustomEnvelope root ns ∈ (main w).events) :
    root = "soapenv" ∧ ns = envelopeNamespaces := by
  rcases main_outcome w with ⟨e, -, hrun⟩ | ⟨pwd, e, h₀, -, hrun⟩ | ⟨pwd, _, e, h₀, -, -, hrun⟩
    | ⟨pwd, _, _, e, h₀, -, -, -, hrun⟩ | ⟨pwd, _, _, r, e, h₀, -, -, -, -, hrun⟩
    | ⟨pwd, _, _, r, _, h₀, -, -, -, -, -, hrun⟩ | ⟨pwd, _, _, r, _, h₀, -, -, -, -, -, hrun⟩
  all_goals
    simp [hrun, fatalf, traceXml, traceUnmarshal, traceCall, traceClient] at h
  all_goals exact h

/-- C3: exactly one call, no resend. In every run of `main`, whatever the
collaborators return, `soap.Call` is invoked at most once, and exactly once when
`os.Getwd` and `gosoap.SoapClientWithConfig` succeed; every invocation has the
operation name `sch:GetIpLocation`; when the call fails, the run consists of the
one call followed by `log.Fatalf` and exit code 1. -/
theorem call_invoked_at_most_once {σ ρ : Type} (w : World σ ρ) :
    (main w).events.countP Event.isCall ≤ 1
    ∧ (∀ pwd soap, w.Getwd = .ok pwd →
        w.SoapClientWithConfig (wsdlURI pwd) client config = .ok soap →
        (main w).events.countP Event.isCall = 1)
    ∧ (∀ op ps, Event.Call op ps ∈ (main w).events → op = "sch:GetIpLocation")
    ∧ (∀ pwd soap e, w.Getwd = .ok pwd →
        w.SoapClientWithConfig (wsdlURI pwd) client config = .ok soap →
        w.Call soap "sch:GetIpLocation" params = .error e →
        (main w).events = [.Getwd, .SetCustomEnvelope "soapenv" envelopeNamespaces,
            .SoapClientWithConfig (wsdlURI pwd) client config,
            .Call "sch:GetIpLocation" params, .Fatalf "Call error: %s" (.err e)]
          ∧ (main w).exitCode = 1) := by
  refine ⟨?_, ?_, fun op ps h => (call_argument w op ps h).1, ?_⟩
  · rcases main_outcome w with ⟨e, -, hrun⟩ | ⟨pwd, e, -, -, hrun⟩ | ⟨pwd, _, e, -, -, -, hrun⟩
      | ⟨pwd, _, _, e, -, -, -, -, hrun⟩ | ⟨pwd, _, _, r, e, -, -, -, -, -, hrun⟩
      | ⟨pwd, _, _, r, _, -, -, -, -, -, -, hrun⟩ | ⟨pwd, _, _, r, _, -, -, -, -, -, -, hrun⟩
    all_goals
      simp [hrun, fatalf, traceXml, traceUnmarshal, traceCall, traceClient, List.countP_cons,
        Event.isCall]
  · intro pwd soap h₀ h₁
    rcases main_outcome w with ⟨e, h, hrun⟩ | ⟨pwd', e, h, h', hrun⟩
      | ⟨pwd', _, e, -, -, -, hrun⟩
      | ⟨pwd', _, _, e, -, -, -, -, hrun⟩ | ⟨pwd', _, _, r, e, -, -, -, -, -, hrun⟩
      | ⟨pwd', _, _, r, _, -, -, -, -, -, -, hrun⟩ | ⟨pwd', _, _, r, _, -, -, -, -, -, -, hrun⟩
    · simp [h₀] at h
    · simp only [h₀, Except.ok.injEq] at h
      subst h
      simp [h₁] at h'
    all_goals
      simp [hrun, fatalf, traceXml, traceUnmarshal, traceCall, traceClient, List.countP_cons,
        Event.isCall]
  · intro pwd soap e h₀ h₁ h₂
    simp [main, h₀, h₁, h₂, fatalf]

/-- Witness of C3: in a world where the call fails, the run is the one call
followed by `log.Fatalf`. -/
theorem call_invoked_at_most_once_witness :
    (main worldCallFails).events = [.Getwd, .SetCustomEnvelope "soapenv" envelopeNamespaces,
        .SoapClientWithConfig (wsdlURI "/home/gopher/gosoap/example") client config,
        .Call "sch:GetIpLocation" params, .Fatalf "Call error: %s" (.err "connection refused")]
      ∧ (main worldCallFails).exitCode = 1 :=
  (call_invoked_at_most_once worldCallFails).2.2.2 "/home/gopher/gosoap/example" ()
    "connection refused" rfl rfl rfl

/-- C4: the envelope template is set once and before first use. In every run of
`main`, `gosoap.SetCustomEnvelope` is called at most once, always with the root
prefix `soapenv` and the two-entry namespace map; before every call of
`gosoap.SoapClientWithConfig` or `soap.Call` it has been called exactly once,
and it is never called after one. -/
theorem envelope_set_once_before_use {σ ρ : Type} (w : World σ ρ) :
    (main w).events.countP Event.isSetCustomEnvelope ≤ 1
    ∧ (∀ root ns, Event.SetCustomEnvelope root ns ∈ (main w).events →
        root = "soapenv" ∧ ns = envelopeNamespaces)
    ∧ envelopeNamespaces.length = 2
    ∧ (envelopeNamespaces.map Prod.fst).Nodup
    ∧ (∀ pre e post, (main w).events = pre ++ e :: post → e.usesEnvelope = true →
        pre.countP Event.isSetCustomEnvelope = 1 ∧ post.countP Event.isSetCustomEnvelope = 0) := by
  refine ⟨?_, envelope_argument w, rfl, by decide, ?_⟩
  · rcases events_shape w with ⟨e, h⟩ | ⟨rest, h, hrest⟩
    · simp [h, List.countP_cons, Event.isSetCustomEnvelope]
    · have : rest.countP Event.isSetCustomEnvelope = 0 := by
        rw [List.countP_eq_zero]
        intro ev hev
        simp [hrest ev hev]
      simp [h, List.countP_cons, Event.isSetCustomEnvelope, this]
  · intro pre e post h he
    rcases events_shape w with ⟨a, h'⟩ | ⟨rest, h', hrest⟩
    · rw [h'] at h
      have hmem : e ∈ [Event.Getwd,
          Event.Fatalf "error getting current working directory: %s" a] := by
        rw [h]
        simp
      simp only [List.mem_cons, List.mem_singleton, List.not_mem_nil, or_false] at hmem
      rcases hmem with rfl | rfl <;> simp [Event.usesEnvelope] at he
    · rw [h'] at h
      exact count_around_use rest pre post e h he hrest

/-- Witness of C4: in the run where the country is US, the one call of
`gosoap.SetCustomEnvelope` precedes the construction of the client, and none
follows it. -/
theorem envelope_set_once_before_use_witness :
    [Event.Getwd, .SetCustomEnvelope "soapenv" envelopeNamespaces].countP
        Event.isSetCustomEnvelope = 1
      ∧ [Event.Call "sch:GetIpLocation" params, .ResUnmarshal,
          .XmlUnmarshal "<GeoIP><Country>US</Country></GeoIP>",
          .Println ["Country: ", "US"], .Println ["State: ", ""]].countP
        Event.isSetCustomEnvelope = 0 :=
  (envelope_set_once_before_use worldUS).2.2.2.2
    [.Getwd, .SetCustomEnvelope "soapenv" envelopeNamespaces]
    (.SoapClientWithConfig (wsdlURI "/home/gopher/gosoap/example") client config)
    [.Call "sch:GetIpLocation" params, .ResUnmarshal,
      .XmlUnmarshal "<GeoIP><Country>US</Country></GeoIP>",
      .Println ["Country: ", "US"], .Println ["State: ", ""]]
    rfl rfl

/-- The run of `main` against the transport that returns the body of the spec's
example. -/
theorem main_worldUS :
    main worldUS = { events := [.Getwd, .SetCustomEnvelope "soapenv" envelopeNamespaces,
        .SoapClientWithConfig (wsdlURI "/home/gopher/gosoap/example") client config,
        .Call "sch:GetIpLocation" params, .ResUnmarshal,
        .XmlUnmarshal "<GeoIP><Country>US</Country></GeoIP>",
        .Println ["Country: ", "US"], .Println ["State: ", ""]], exitCode := 0 } := by
  rfl

theorem client_event_worldUS :
    Event.SoapClientWithConfig (wsdlURI "/home/gopher/gosoap/example") client config
      ∈ (main worldUS).events := by
  rw [main_worldUS]
  simp

/-! ## The injected HTTP client -/

/-- C5: skipping TLS certificate verification is an explicit choice of the
caller. `tlsConfig` returns a configuration with `InsecureSkipVerify = true`;
that configuration is the `TLSClientConfig` of the transport of `client`; and
`client` is the HTTP client that `main` passes to `gosoap.SoapClientWithConfig`
in every run. -/
theorem tls_skip_verify_explicit {σ ρ : Type} (w : World σ ρ) :
    tlsConfig.InsecureSkipVerify = true
    ∧ client.Transport.TLSClientConfig = tlsConfig
    ∧ client.Transport.TLSClientConfig.InsecureSkipVerify = true
    ∧ ∀ wsdl c cfg, Event.SoapClientWithConfig wsdl c cfg ∈ (main w).events →
        c = client ∧ c.Transport.TLSClientConfig.InsecureSkipVerify = true := by
  refine ⟨rfl, rfl, rfl, fun wsdl c cfg h => ?_⟩
  obtain ⟨rfl, -⟩ := client_argument w wsdl c cfg h
  exact ⟨rfl, rfl⟩

/-- Witness of C5: the client of the run where the country is US. -/
theorem tls_skip_verify_explicit_witness :
    client = client ∧ client.Transport.TLSClientConfig.InsecureSkipVerify = true :=
  (tls_skip_verify_explicit worldUS).2.2.2 (wsdlURI "/home/gopher/gosoap/example") client config
    client_event_worldUS

/-- C6: the WSDL location handed to the loader is always a `file://` URI. When
`os.Getwd` returns `pwd`, `main` calls `gosoap.SoapClientWithConfig` with the URI
`"file://" ++ pwd ++ "/../testdata/ipservice.wsdl"` and with no other; the URI
starts with `file://`, ends with `/../testdata/ipservice.wsdl`, and starts with
`file:///` when `pwd` starts with `/`. -/
theorem wsdl_location_is_file_uri {σ ρ : Type} (w : World σ ρ) (pwd : String)
    (h : w.Getwd = .ok pwd) :
    Event.SoapClientWithConfig ("file://" ++ pwd ++ "/../testdata/ipservice.wsdl") client config
        ∈ (main w).events
    ∧ (∀ uri c cfg, Event.SoapClientWithConfig uri c cfg ∈ (main w).events →
        uri = "file://" ++ pwd ++ "/../testdata/ipservice.wsdl")
    ∧ "file://".data <+: ("file://" ++ pwd ++ "/../testdata/ipservice.wsdl").data
    ∧ "/../testdata/ipservice.wsdl".data
        <:+ ("file://" ++ pwd ++ "/../testdata/ipservice.wsdl").data
    ∧ ("/".data <+: pwd.data →
        "file:///".data <+: ("file://" ++ pwd ++ "/../testdata/ipservice.wsdl").data) := by
  refine ⟨?_, ?_, ?_, ?_, ?_⟩
  · rcases main_outcome w with ⟨e, h₀, hrun⟩ | ⟨pwd', e, h₀, -, hrun⟩
      | ⟨pwd', _, e, h₀, -, -, hrun⟩
      | ⟨pwd', _, _, e, h₀, -, -, -, hrun⟩ | ⟨pwd', _, _, r, e, h₀, -, -, -, -, hrun⟩
      | ⟨pwd', _, _, r, _, h₀, -, -, -, -, -, hrun⟩ | ⟨pwd', _, _, r, _, h₀, -, -, -, -, -, hrun⟩
    · simp [h] at h₀
    all_goals
      simp only [h, Except.ok.injEq] at h₀
      subst h₀
      simp [hrun, fatalf, traceXml, traceUnmarshal, traceCall, traceClient, wsdlURI]
  · intro uri c cfg hmem
    obtain ⟨-, -, pwd', h₀, rfl⟩ := client_argument w uri c cfg hmem
    simp only [h, Except.ok.injEq] at h₀
    subst h₀
    rfl
  · exact ⟨pwd.data ++ "/../testdata/ipservice.wsdl".data, by simp [String.data_append]⟩
  · exact ⟨"file://".data ++ pwd.data, by simp [String.data_append]⟩
  · rintro ⟨t, ht⟩
    exact ⟨t ++ "/../testdata/ipservice.wsdl".data, by simp [String.data_append, ← ht]⟩

/-- Witness of C6: the run in the directory `/home/gopher/gosoap/example`. -/
theorem wsdl_location_is_file_uri_witness :
    Event.SoapClientWithConfig
        ("file://" ++ "/home/gopher/gosoap/example" ++ "/../testdata/ipservice.wsdl") client
        config ∈ (main worldUS).events
    ∧ "file:///".data
        <+: ("file://" ++ "/home/gopher/gosoap/example" ++ "/../testdata/ipservice.wsdl").data :=
  ⟨(wsdl_location_is_file_uri worldUS "/home/gopher/gosoap/example" rfl).1,
    (wsdl_location_is_file_uri worldUS "/home/gopher/gosoap/example" rfl).2.2.2.2
      ⟨"home/gopher/gosoap/example".data, rfl⟩⟩

/-- C7: the injected HTTP client carries finite, non-zero timeouts. `client` has
`Timeout` 5 seconds, its transport `TLSHandshakeTimeout` 2 seconds and a dialer
`Timeout` of 5 seconds; the three are strictly positive and representable, the
handshake and dial timeouts do not exceed the overall timeout, and `client` is
the client of every call of `gosoap.SoapClientWithConfig`, so the request
timeout is never the zero value that means no deadline. -/
theorem client_timeouts_sane {σ ρ : Type} (w : World σ ρ) :
    client.Timeout = 5 * Second
    ∧ client.Transport.TLSHandshakeTimeout = 2 * Second
    ∧ client.Transport.Dial.Timeout = 5 * Second
    ∧ Second = 1000000000
    ∧ (0 < client.Timeout ∧ client.Timeout ≤ maxInt64)
    ∧ (0 < client.Transport.TLSHandshakeTimeout
        ∧ client.Transport.TLSHandshakeTimeout ≤ client.Timeout)
    ∧ (0 < client.Transport.Dial.Timeout ∧ client.Transport.Dial.Timeout ≤ client.Timeout)
    ∧ ∀ wsdl c cfg, Event.SoapClientWithConfig wsdl c cfg ∈ (main w).events →
        c.Timeout = 5 * Second ∧ c.Timeout ≠ 0 := by
  refine ⟨rfl, rfl, rfl, by decide, by decide, by decide, by decide, fun wsdl c cfg h => ?_⟩
  obtain ⟨rfl, -⟩ := client_argument w wsdl c cfg h
  exact ⟨rfl, by decide⟩

/-- Witness of C7: the client of the run where the country is US. -/
theorem client_timeouts_sane_witness : client.Timeout = 5 * Second ∧ client.Timeout ≠ 0 :=
  (client_timeouts_sane worldUS).2.2.2.2.2.2.2 (wsdlURI "/home/gopher/gosoap/example") client
    config client_event_worldUS

/-! ## Parameters and namespaces -/

theorem call_event_worldUS :
    Event.Call "sch:GetIpLocation" params ∈ (main worldUS).events := by
  rw [main_worldUS]
  simp

theorem envelope_event_worldUS :
    Event.SetCustomEnvelope "soapenv" envelopeNamespaces ∈ (main worldUS).events := by
  rw [main_worldUS]
  simp

/-- C8: the parameter set of the example cannot trigger a bind failure and is
order-independent. The `Params` value of `main`, which is the one passed to
every `soap.Call`, has the single entry (`sch:sIp`, `8.8.8.8`); the name is not
empty, its part after the colon is `sIp`, a legal XML element name, so it is no
bind error; and every enumeration order of the map is that one sequence, which
the binder turns into the ordered form with the same single pair. -/
theorem params_bind_safely {σ ρ : Type} (w : World σ ρ) :
    params = [("sch:sIp", "8.8.8.8")]
    ∧ (∀ op ps, Event.Call op ps ∈ (main w).events → ps = [("sch:sIp", "8.8.8.8")])
    ∧ (∀ kv ∈ params, kv.1 ≠ "" ∧ localPart kv.1 = "sIp"
        ∧ isLegalElementName (localPart kv.1) = true ∧ bindError kv.1 = false)
    ∧ (∀ order : List (String × String), order.Perm params →
        order = [("sch:sIp", "8.8.8.8")] ∧ bind order = some [("sch:sIp", "8.8.8.8")]) := by
  refine ⟨rfl, fun op ps h => (call_argument w op ps h).2, ?_, ?_⟩
  · intro kv hkv
    simp only [params, List.mem_singleton] at hkv
    subst hkv
    decide
  · intro order h
    have : order = [("sch:sIp", "8.8.8.8")] := by
      simpa [params, List.perm_singleton] using h
    subst this
    exact ⟨rfl, by decide⟩

/-- Witness of C8: the parameters of the call in the run where the country is
US. -/
theorem params_bind_safely_witness :
    params = [("sch:sIp", "8.8.8.8")]
      ∧ bind [("sch:sIp", "8.8.8.8")] = some [("sch:sIp", "8.8.8.8")] :=
  ⟨(params_bind_safely worldUS).2.1 "sch:GetIpLocation" params call_event_worldUS,
    ((params_bind_safely worldUS).2.2.2 [("sch:sIp", "8.8.8.8")] (List.Perm.refl _)).2⟩

/-- C9: namespace prefixes are consistent across the example. In every run of
`main`, the namespace map passed to `gosoap.SetCustomEnvelope` declares the root
prefix passed with it (`soapenv`), maps `xmlns:soapenv` to the SOAP 1.1 envelope
namespace, and declares the prefix `sch`, which is the prefix of the operation
name and of every parameter name of every `soap.Call` of the run. -/
theorem namespace_prefixes_declared {σ ρ : Type} (w : World σ ρ) :
    (∀ root ns, Event.SetCustomEnvelope root ns ∈ (main w).events →
      root = "soapenv" ∧ declares ns root
      ∧ ns.lookup "xmlns:soapenv" = some "http://schemas.xmlsoap.org/soap/envelope/"
      ∧ ∀ op ps, Event.Call op ps ∈ (main w).events →
          op = "sch:GetIpLocation" ∧ qualifier op = some "sch" ∧ declares ns "sch"
          ∧ ∀ kv ∈ ps, qualifier kv.1 = some "sch")
    ∧ (∀ op ps, Event.Call op ps ∈ (main w).events →
        Event.SetCustomEnvelope "soapenv" envelopeNamespaces ∈ (main w).events) := by
  refine ⟨?_, ?_⟩
  · intro root ns h
    obtain ⟨rfl, rfl⟩ := envelope_argument w root ns h
    refine ⟨rfl, by decide, by decide, ?_⟩
    intro op ps hc
    obtain ⟨rfl, rfl⟩ := call_argument w op ps hc
    refine ⟨rfl, by decide, by decide, ?_⟩
    intro kv hkv
    simp only [params, List.mem_singleton] at hkv
    subst hkv
    decide
  · intro op ps hc
    rcases events_shape w with ⟨e, h⟩ | ⟨rest, h, -⟩
    · rw [h] at hc
      simp at hc
    · rw [h]
      simp

/-- Witness of C9: the run where the country is US. -/
theorem namespace_prefixes_declared_witness :
    qualifier "sch:GetIpLocation" = some "sch" ∧ declares envelopeNamespaces "sch"
      ∧ declares envelopeNamespaces "soapenv" :=
  ⟨(((namespace_prefixes_declared worldUS).1 "soapenv" envelopeNamespaces
      envelope_event_worldUS).2.2.2 "sch:GetIpLocation" params call_event_worldUS).2.1,
    (((namespace_prefixes_declared worldUS).1 "soapenv" envelopeNamespaces
      envelope_event_worldUS).2.2.2 "sch:GetIpLocation" params call_event_worldUS).2.2.1,
    ((namespace_prefixes_declared worldUS).1 "soapenv" envelopeNamespaces
      envelope_event_worldUS).2.1⟩

/-! ## The final output -/

theorem main_of_succeeds {σ ρ : Type} (w : World σ ρ) (r : GetIPLocationResponse)
    (result : GetIPLocationResult) (h : Succeeds w r result) :
    ∃ pwd, w.Getwd = .ok pwd ∧ main w =
      if result.Country ≠ "US" then fatalf (traceXml pwd r) "error: %+v" (.response r)
      else { events := traceXml pwd r ++ [.Println ["Country: ", result.Country],
          .Println ["State: ", result.State]], exitCode := 0 } := by
  obtain ⟨pwd, soap, res, h₀, h₁, h₂, h₃, h₄⟩ := h
  refine ⟨pwd, h₀, ?_⟩
  simp only [main, h₀, h₁, h₂, h₃, h₄, traceXml, traceUnmarshal, traceCall, traceClient]

theorem main_worldLowercase :
    main worldLowercase = { events := [.Getwd, .SetCustomEnvelope "soapenv" envelopeNamespaces,
        .SoapClientWithConfig (wsdlURI "/home/gopher/gosoap/example") client config,
        .Call "sch:GetIpLocation" params, .ResUnmarshal,
        .XmlUnmarshal "<GeoIP><Country>us</Country><State>CA</State></GeoIP>",
        .Fatalf "error: %+v"
          (.response { GetIPLocationResult :=
            "<GeoIP><Country>us</Country><State>CA</State></GeoIP>" })], exitCode := 1 } := by
  rfl

theorem succeeds_worldLowercase :
    Succeeds worldLowercase
      { GetIPLocationResult := "<GeoIP><Country>us</Country><State>CA</State></GeoIP>" }
      { Country := "us", State := "CA" } :=
  ⟨"/home/gopher/gosoap/example", (),
    "<GetIpLocationResponse><GetIpLocationResult>&lt;GeoIP&gt;&lt;Country&gt;us&lt;/Country&gt;&lt;State&gt;CA&lt;/State&gt;&lt;/GeoIP&gt;</GetIpLocationResult></GetIpLocationResponse>",
    rfl, rfl, rfl, rfl, rfl⟩

/-- C10: `main` reaches its final output exactly when the decoded country is US.
In every run, `main` logs the line `Country: ` (and likewise the line `State: `)
if and only if the five fallible steps succeed and the `Country` of the inner
decode equals the string `US`; then the two lines carry the decoded country and
state, whatever the state is. When the five steps succeed and `Country` differs
from `US`, the run ends in `log.Fatalf("error: %+v", r)` with the outer response
`r`, exit code 1, and no line is logged. -/
theorem main_logs_iff_country_US {σ ρ : Type} (w : World σ ρ) :
    ((∃ c, Event.Println ["Country: ", c] ∈ (main w).events)
      ↔ ∃ r result, Succeeds w r result ∧ result.Country = "US")
    ∧ ((∃ t, Event.Println ["State: ", t] ∈ (main w).events)
      ↔ ∃ r result, Succeeds w r result ∧ result.Country = "US")
    ∧ (∀ r result, Succeeds w r result → result.Country = "US" →
        (main w).exitCode = 0
        ∧ (main w).events.filter Event.isPrintln
          = [.Println ["Country: ", "US"], .Println ["State: ", result.State]]
        ∧ ∀ ev ∈ (main w).events, ev.isFatalf = false)
    ∧ (∀ r result, Succeeds w r result → result.Country ≠ "US" →
        (main w).exitCode = 1
        ∧ (main w).events.getLast? = some (.Fatalf "error: %+v" (.response r))
        ∧ ∀ ev ∈ (main w).events, ev.isPrintln = false) := by
  have key : ∀ line : String, (∃ c, Event.Println [line, c] ∈ (main w).events) →
      ∃ r result, Succeeds w r result ∧ result.Country = "US" := by
    rintro line ⟨c, hc⟩
    rcases main_outcome w with ⟨e, -, hrun⟩ | ⟨pwd, e, h₀, -, hrun⟩ | ⟨pwd, _, e, h₀, -, -, hrun⟩
      | ⟨pwd, _, _, e, h₀, -, -, -, hrun⟩ | ⟨pwd, _, _, r, e, h₀, -, -, -, -, hrun⟩
      | ⟨pwd, _, _, r, _, h₀, -, -, -, -, -, hrun⟩
      | ⟨pwd, soap, res, r, result, h₀, h₁, h₂, h₃, h₄, h₅, hrun⟩
    · simp [hrun, fatalf] at hc
    · simp [hrun, fatalf, traceClient] at hc
    · simp [hrun, fatalf, traceCall, traceClient] at hc
    · simp [hrun, fatalf, traceUnmarshal, traceCall, traceClient] at hc
    · simp [hrun, fatalf, traceXml, traceUnmarshal, traceCall, traceClient] at hc
    · simp [hrun, fatalf, traceXml, traceUnmarshal, traceCall, traceClient] at hc
    · exact ⟨r, result, ⟨pwd, soap, res, h₀, h₁, h₂, h₃, h₄⟩, h₅⟩
  refine ⟨⟨key _, ?_⟩, ⟨key _, ?_⟩, ?_, ?_⟩
  · rintro ⟨r, result, hs, hUS⟩
    obtain ⟨pwd, -, hrun⟩ := main_of_succeeds w r result hs
    exact ⟨result.Country, by simp [hrun, hUS]⟩
  · rintro ⟨r, result, hs, hUS⟩
    obtain ⟨pwd, -, hrun⟩ := main_of_succeeds w r result hs
    exact ⟨result.State, by simp [hrun, hUS]⟩
  · intro r result hs hUS
    obtain ⟨pwd, -, hrun⟩ := main_of_succeeds w r result hs
    simp [hrun, hUS, traceXml, traceUnmarshal, traceCall, traceClient, Event.isPrintln,
      Event.isFatalf, List.filter_cons]
  · intro r result hs hUS
    obtain ⟨pwd, -, hrun⟩ := main_of_succeeds w r result hs
    simp [hrun, hUS, fatalf, traceXml, traceUnmarshal, traceCall, traceClient, Event.isPrintln]

/-- Witness of C10: the country spelled `us` is not `US`; the run ends in
`log.Fatalf` on the outer response and logs no line. -/
theorem main_logs_iff_country_US_witness :
    (main worldLowercase).exitCode = 1
      ∧ (main worldLowercase).events.getLast? = some (.Fatalf "error: %+v"
          (.response { GetIPLocationResult :=
            "<GeoIP><Country>us</Country><State>CA</State></GeoIP>" }))
      ∧ ∀ ev ∈ (main worldLowercase).events, ev.isPrintln = false :=
  (main_logs_iff_country_US worldLowercase).2.2.2 _ { Country := "us", State := "CA" }
    succeeds_worldLowercase (by decide)

/-! ## The two-step decode -/

theorem decodeResponse_direct (x : List Char) :
    decodeResponse ([.StartElement { Space := [], Local := "GetIpLocationResponse".data },
        .StartElement { Space := [], Local := "GetIpLocationResult".data }] ++ flushText x
        ++ [.EndElement { Space := [], Local := "GetIpLocationResult".data },
          .EndElement { Space := [], Local := "GetIpLocationResponse".data }]) .closed
      = .ok { GetIPLocationResult := String.mk x } := by
  cases x with
  | nil => rfl
  | cons c cs =>
    simp [decodeResponse, flushText, findStart, unmarshalLoop, Fields.set, List.lookup]

theorem decodeResponse_among (x : List Char) :
    decodeResponse ([.StartElement { Space := [], Local := "GetIpLocationResponse".data },
        .StartElement { Space := [], Local := "Other".data }, .CharData ['x'],
        .EndElement { Space := [], Local := "Other".data },
        .StartElement { Space := [], Local := "GetIpLocationResult".data }] ++ flushText x
        ++ [.EndElement { Space := [], Local := "GetIpLocationResult".data },
          .StartElement { Space := [], Local := "Other".data }, .CharData ['y'],
          .EndElement { Space := [], Local := "Other".data },
          .EndElement { Space := [], Local := "GetIpLocationResponse".data }]) .closed
      = .ok { GetIPLocationResult := String.mk x } := by
  cases x with
  | nil => rfl
  | cons c cs =>
    simp [decodeResponse, flushText, findStart, unmarshalLoop, Fields.set, List.lookup]

theorem decodeResponse_other (x : List Char) :
    decodeResponse ([.StartElement { Space := [], Local := "GetIpLocationResponse".data },
        .StartElement { Space := [], Local := "Other".data }] ++ flushText x
        ++ [.EndElement { Space := [], Local := "Other".data },
          .EndElement { Space := [], Local := "GetIpLocationResponse".data }]) .closed
      = .error (.missingElement "GetIpLocationResult") := by
  cases x with
  | nil => rfl
  | cons c cs =>
    simp [decodeResponse, flushText, findStart, unmarshalLoop, Fields.set, List.lookup]

/-- The decode of a body with escaped text: the field is the text, with U+FFFD
for each character outside the XML character range. -/
theorem Unmarshal_escaped (s : String) :
    Response.Unmarshal (responseBody (EscapeText s))
      = .ok { GetIPLocationResult := String.mk (s.data.map sanitize) } := by
  have h := tokens_escaped "<GetIpLocationResponse><GetIpLocationResult>".data
    "/GetIpLocationResult></GetIpLocationResponse>".data
    [{ Space := [], Local := "GetIpLocationResult".data },
      { Space := [], Local := "GetIpLocationResponse".data }]
    [.StartElement { Space := [], Local := "GetIpLocationResponse".data },
      .StartElement { Space := [], Local := "GetIpLocationResult".data }]
    [.EndElement { Space := [], Local := "GetIpLocationResult".data },
      .EndElement { Space := [], Local := "GetIpLocationResponse".data }]
    (by decide) (by decide) s.data
  have hb : (responseBody (EscapeText s)).data
      = "<GetIpLocationResponse><GetIpLocationResult>".data ++ escapeChars s.data
        ++ '<' :: "/GetIpLocationResult></GetIpLocationResponse>".data := by
    simp [responseBody, EscapeText, String.data_append]
  rw [Response.Unmarshal, hb, h]
  exact decodeResponse_direct _

theorem Unmarshal_among (s : String) :
    Response.Unmarshal ("<GetIpLocationResponse><Other>x</Other><GetIpLocationResult>"
        ++ EscapeText s ++ "</GetIpLocationResult><Other>y</Other></GetIpLocationResponse>")
      = .ok { GetIPLocationResult := String.mk (s.data.map sanitize) } := by
  have h := tokens_escaped "<GetIpLocationResponse><Other>x</Other><GetIpLocationResult>".data
    "/GetIpLocationResult><Other>y</Other></GetIpLocationResponse>".data
    [{ Space := [], Local := "GetIpLocationResult".data },
      { Space := [], Local := "GetIpLocationResponse".data }]
    [.StartElement { Space := [], Local := "GetIpLocationResponse".data },
      .StartElement { Space := [], Local := "Other".data }, .CharData ['x'],
      .EndElement { Space := [], Local := "Other".data },
      .StartElement { Space := [], Local := "GetIpLocationResult".data }]
    [.EndElement { Space := [], Local := "GetIpLocationResult".data },
      .StartElement { Space := [], Local := "Other".data }, .CharData ['y'],
      .EndElement { Space := [], Local := "Other".data },
      .EndElement { Space := [], Local := "GetIpLocationResponse".data }]
    (by decide) (by decide) s.data
  have hb : ("<GetIpLocationResponse><Other>x</Other><GetIpLocationResult>"
        ++ EscapeText s ++ "</GetIpLocationResult><Other>y</Other></GetIpLocationResponse>").data
      = "<GetIpLocationResponse><Other>x</Other><GetIpLocationResult>".data
        ++ escapeChars s.data
        ++ '<' :: "/GetIpLocationResult><Other>y</Other></GetIpLocationResponse>".data := by
    simp [EscapeText, String.data_append]
  rw [Response.Unmarshal, hb, h]
  exact decodeResponse_among _

theorem Unmarshal_other (s : String) :
    Response.Unmarshal ("<GetIpLocationResponse><Other>" ++ EscapeText s
        ++ "</Other></GetIpLocationResponse>")
      = .error (.missingElement "GetIpLocationResult") := by
  have h := tokens_escaped "<GetIpLocationResponse><Other>".data
    "/Other></GetIpLocationResponse>".data
    [{ Space := [], Local := "Other".data },
      { Space := [], Local := "GetIpLocationResponse".data }]
    [.StartElement { Space := [], Local := "GetIpLocationResponse".data },
      .StartElement { Space := [], Local := "Other".data }]
    [.EndElement { Space := [], Local := "Other".data },
      .EndElement { Space := [], Local := "GetIpLocationResponse".data }]
    (by decide) (by decide) s.data
  have hb : ("<GetIpLocationResponse><Other>" ++ EscapeText s
        ++ "</Other></GetIpLocationResponse>").data
      = "<GetIpLocationResponse><Other>".data ++ escapeChars s.data
        ++ '<' :: "/Other></GetIpLocationResponse>".data := by
    simp [EscapeText, String.data_append]
  rw [Response.Unmarshal, hb, h]
  exact decodeResponse_other _

theorem decodeGeoIP_both (c t : List Char) :
    decodeGeoIP ([.StartElement { Space := [], Local := "GeoIP".data },
        .StartElement { Space := [], Local := "Country".data }] ++ flushText c
        ++ [.EndElement { Space := [], Local := "Country".data },
          .StartElement { Space := [], Local := "State".data }] ++ flushText t
        ++ [.EndElement { Space := [], Local := "State".data },
          .EndElement { Space := [], Local := "GeoIP".data }]) .closed
      = .ok { Country := String.mk c, State := String.mk t } := by
  cases c <;> cases t <;>
    simp [decodeGeoIP, flushText, findStart, unmarshalLoop, Fields.set, Fields.get, List.lookup]

theorem decodeGeoIP_swapped (c t : List Char) :
    decodeGeoIP ([.StartElement { Space := [], Local := "GeoIP".data },
        .StartElement { Space := [], Local := "State".data }] ++ flushText t
        ++ [.EndElement { Space := [], Local := "State".data },
          .StartElement { Space := [], Local := "Country".data }] ++ flushText c
        ++ [.EndElement { Space := [], Local := "Country".data },
          .EndElement { Space := [], Local := "GeoIP".data }]) .closed
      = .ok { Country := String.mk c, State := String.mk t } := by
  cases c <;> cases t <;>
    simp [decodeGeoIP, flushText, findStart, unmarshalLoop, Fields.set, Fields.get, List.lookup]

theorem decodeGeoIP_country (c : List Char) :
    decodeGeoIP ([.StartElement { Space := [], Local := "GeoIP".data },
        .StartElement { Space := [], Local := "Country".data }] ++ flushText c
        ++ [.EndElement { Space := [], Local := "Country".data },
          .EndElement { Space := [], Local := "GeoIP".data }]) .closed
      = .ok { Country := String.mk c, State := "" } := by
  cases c <;>
    simp [decodeGeoIP, flushText, findStart, unmarshalLoop, Fields.set, Fields.get, List.lookup]

theorem xmlUnmarshal_geoIP_state (c t : String) (hc : Verbatim c) (ht : Verbatim t) :
    xmlUnmarshal (geoIP c (some t)) = .ok { Country := c, State := t } := by
  have h := tokens_verbatim₂ "<GeoIP><Country>".data "/Country><State>".data
    "/State></GeoIP>".data
    [{ Space := [], Local := "Country".data }, { Space := [], Local := "GeoIP".data }]
    [{ Space := [], Local := "State".data }, { Space := [], Local := "GeoIP".data }]
    [.StartElement { Space := [], Local := "GeoIP".data },
      .StartElement { Space := [], Local := "Country".data }]
    [.EndElement { Space := [], Local := "Country".data },
      .StartElement { Space := [], Local := "State".data }]
    [.EndElement { Space := [], Local := "State".data },
      .EndElement { Space := [], Local := "GeoIP".data }]
    (by decide) (by decide) (by decide) c.data t.data hc ht
  have hb : (geoIP c (some t)).data
      = "<GeoIP><Country>".data ++ c.data ++ '<' :: "/Country><State>".data ++ t.data
        ++ '<' :: "/State></GeoIP>".data := by
    simp [geoIP, String.data_append]
  rw [xmlUnmarshal, hb, h]
  exact decodeGeoIP_both _ _

theorem xmlUnmarshal_swapped (c t : String) (hc : Verbatim c) (ht : Verbatim t) :
    xmlUnmarshal ("<GeoIP><State>" ++ t ++ "</State><Country>" ++ c ++ "</Country></GeoIP>")
      = .ok { Country := c, State := t } := by
  have h := tokens_verbatim₂ "<GeoIP><State>".data "/State><Country>".data
    "/Country></GeoIP>".data
    [{ Space := [], Local := "State".data }, { Space := [], Local := "GeoIP".data }]
    [{ Space := [], Local := "Country".data }, { Space := [], Local := "GeoIP".data }]
    [.StartElement { Space := [], Local := "GeoIP".data },
      .StartElement { Space := [], Local := "State".data }]
    [.EndElement { Space := [], Local := "State".data },
      .StartElement { Space := [], Local := "Country".data }]
    [.EndElement { Space := [], Local := "Country".data },
      .EndElement { Space := [], Local := "GeoIP".data }]
    (by decide) (by decide) (by decide) t.data c.data ht hc
  have hb : ("<GeoIP><State>" ++ t ++ "</State><Country>" ++ c ++ "</Country></GeoIP>").data
      = "<GeoIP><State>".data ++ t.data ++ '<' :: "/State><Country>".data ++ c.data
        ++ '<' :: "/Country></GeoIP>".data := by
    simp [String.data_append]
  rw [xmlUnmarshal, hb, h]
  exact decodeGeoIP_swapped _ _

theorem xmlUnmarshal_geoIP (c : String) (hc : Verbatim c) :
    xmlUnmarshal (geoIP c none) = .ok { Country := c, State := "" } := by
  have h := tokens_verbatim₁ "<GeoIP><Country>".data "/Country></GeoIP>".data
    [{ Space := [], Local := "Country".data }, { Space := [], Local := "GeoIP".data }]
    [.StartElement { Space := [], Local := "GeoIP".data },
      .StartElement { Space := [], Local := "Country".data }]
    [.EndElement { Space := [], Local := "Country".data },
      .EndElement { Space := [], Local := "GeoIP".data }]
    (by decide) (by decide) c.data hc
  have hb : (geoIP c none).data
      = "<GeoIP><Country>".data ++ c.data ++ '<' :: "/Country></GeoIP>".data := by
    simp [geoIP, String.data_append]
  rw [xmlUnmarshal, hb, h]
  exact decodeGeoIP_country _

theorem xmlUnmarshal_root (c : String) (hc : Verbatim c) :
    xmlUnmarshal ("<Geo><Country>" ++ c ++ "</Country></Geo>") = .error .UnmarshalError := by
  have h := tokens_verbatim₁ "<Geo><Country>".data "/Country></Geo>".data
    [{ Space := [], Local := "Country".data }, { Space := [], Local := "Geo".data }]
    [.StartElement { Space := [], Local := "Geo".data },
      .StartElement { Space := [], Local := "Country".data }]
    [.EndElement { Space := [], Local := "Country".data },
      .EndElement { Space := [], Local := "Geo".data }]
    (by decide) (by decide) c.data hc
  have hb : ("<Geo><Country>" ++ c ++ "</Country></Geo>").data
      = "<Geo><Country>".data ++ c.data ++ '<' :: "/Country></Geo>".data := by
    simp [String.data_append]
  rw [xmlUnmarshal, hb, h]
  simp [decodeGeoIP, findStart]

set_option maxRecDepth 8192 in
/-- The decodes of the two example worlds are those of the reader on the bodies
that their calls return. -/
theorem worlds_decode :
    (Response.Unmarshal specBody).toOption = (worldUS.Unmarshal specBody).toOption
    ∧ (xmlUnmarshal "<GeoIP><Country>US</Country></GeoIP>").toOption
      = (worldUS.xmlUnmarshal "<GeoIP><Country>US</Country></GeoIP>").toOption
    ∧ (Response.Unmarshal
        "<GetIpLocationResponse><GetIpLocationResult>&lt;GeoIP&gt;&lt;Country&gt;us&lt;/Country&gt;&lt;State&gt;CA&lt;/State&gt;&lt;/GeoIP&gt;</GetIpLocationResult></GetIpLocationResponse>").toOption
      = some { GetIPLocationResult := "<GeoIP><Country>us</Country><State>CA</State></GeoIP>" }
    ∧ (xmlUnmarshal "<GeoIP><Country>us</Country><State>CA</State></GeoIP>").toOption
      = some { Country := "us", State := "CA" } := by
  refine ⟨by rfl, by rfl, by rfl, by rfl⟩

set_option maxRecDepth 8192 in
/-- A document in its usual dress: an XML declaration, a default namespace, a
character reference, and text after the first element. -/
theorem xmlUnmarshal_document :
    xmlUnmarshal
        "<?xml version=\"1.0\" encoding=\"UTF-8\"?>\n<GeoIP xmlns=\"http://lavasoft.com/\"><Country>US</Country><State>&#67;A</State></GeoIP>\n"
      = .ok { Country := "US", State := "CA" }
    ∧ xmlUnmarshal "<GeoIP><Country>US</Country></GeoIP> and more <"
      = .ok { Country := "US", State := "" }
    ∧ xmlUnmarshal "<GeoIP><Country><![CDATA[<US>]]></Country><!-- no state --></GeoIP>"
      = .ok { Country := "<US>", State := "" }
    ∧ xmlUnmarshal "<GeoIP><a:b:Country>US</a:b:Country></GeoIP>" = .error .SyntaxError
    ∧ xmlUnmarshal "" = .error .EOF := by
  refine ⟨by rfl, by rfl, by rfl, by rfl, by rfl⟩

set_option maxRecDepth 8192 in
/-- The decode of the body of the spec's example. -/
theorem Unmarshal_specBody :
    Response.Unmarshal
        "<GetIpLocationResponse><GetIpLocationResult>&lt;GeoIP&gt;&lt;Country&gt;US&lt;/Country&gt;&lt;/GeoIP&gt;</GetIpLocationResult></GetIpLocationResponse>"
      = .ok { GetIPLocationResult := "<GeoIP><Country>US</Country></GeoIP>" } := by
  rfl

/-- C1 as stated does not hold: `xml.Unmarshal` returns a carriage return in the
content of `Country` as a line feed, so for `c` the text `a`, carriage return,
`b` the decode of `<GeoIP><Country>c</Country><State>CA</State></GeoIP>` has a
`Country` other than `c`. Likewise the content `a]]>b`, a content with U+0001
and a content with `<` are errors, the content `a&amp;b` and the content
`&#xD800;` decode to other texts, and the escaped form of a text with U+0001
decodes to the text with U+FFFD in its place. -/
theorem two_step_decode_counterexample :
    xmlUnmarshal (geoIP "a\rb" (some "CA")) = .ok { Country := "a\nb", State := "CA" }
    ∧ xmlUnmarshal (geoIP "a\rb" (some "CA")) ≠ .ok { Country := "a\rb", State := "CA" }
    ∧ xmlUnmarshal (geoIP "a]]>b" (some "CA")) = .error .SyntaxError
    ∧ xmlUnmarshal (geoIP "a\x01b" (some "CA")) = .error .SyntaxError
    ∧ xmlUnmarshal (geoIP "a<b" (some "CA")) = .error .SyntaxError
    ∧ xmlUnmarshal (geoIP "a&amp;b" (some "CA")) = .ok { Country := "a&b", State := "CA" }
    ∧ xmlUnmarshal (geoIP "&#xD800;" (some "CA")) = .ok { Country := "\uFFFD", State := "CA" }
    ∧ Response.Unmarshal (responseBody (EscapeText "a\x01b"))
      = .ok { GetIPLocationResult := "a\uFFFDb" }
    ∧ Response.Unmarshal (responseBody (EscapeText "a\x01b"))
      ≠ .ok { GetIPLocationResult := "a\x01b" } := by
  refine ⟨by rfl, ?_, by rfl, by rfl, by rfl, by rfl, by rfl, by rfl, ?_⟩
  · rw [show xmlUnmarshal (geoIP "a\rb" (some "CA"))
      = .ok { Country := "a\nb", State := "CA" } from rfl]
    simp
  · rw [show Response.Unmarshal (responseBody (EscapeText "a\x01b"))
      = .ok { GetIPLocationResult := "a\uFFFDb" } from rfl]
    simp

/-- C1, amended: two-step decode of a doubly encoded response. For every inner
text `s` of XML characters, decoding the response body
`<GetIpLocationResponse><GetIpLocationResult>E</GetIpLocationResult></GetIpLocationResponse>`,
with `E` the XML-escaped form of `s`, into `GetIPLocationResponse` sets the field
`GetIPLocationResult` to the literal string `s`: the element tagged
`GetIpLocationResult` is the one matched, also among other elements, an element
with another tag does not fill the field, and the embedded markup is not parsed.
For the inner document `<GeoIP><Country>c</Country><State>t</State></GeoIP>`,
with `c` and `t` character data that the reader returns as it stands (XML
characters other than `<`, `&` and carriage return, without `]]>`), the second
decode into `GetIPLocationResult` yields `Country = c` and `State = t`, in
either order of the two elements, and `State` is empty when that element is
absent; the first element must be `GeoIP`. The body of the spec's example gives
the inner string `<GeoIP><Country>US</Country></GeoIP>`, whose decode has
`Country` equal to `US`. -/
theorem two_step_decode (s c t : String) (hs : XMLText s) (hc : Verbatim c) (ht : Verbatim t) :
    Response.Unmarshal (responseBody (EscapeText s)) = .ok { GetIPLocationResult := s }
    ∧ Response.Unmarshal ("<GetIpLocationResponse><Other>x</Other><GetIpLocationResult>"
        ++ EscapeText s ++ "</GetIpLocationResult><Other>y</Other></GetIpLocationResponse>")
      = .ok { GetIPLocationResult := s }
    ∧ (s ≠ "" → Response.Unmarshal ("<GetIpLocationResponse><Other>" ++ EscapeText s
        ++ "</Other></GetIpLocationResponse>") ≠ .ok { GetIPLocationResult := s })
    ∧ xmlUnmarshal (geoIP c (some t)) = .ok { Country := c, State := t }
    ∧ xmlUnmarshal ("<GeoIP><State>" ++ t ++ "</State><Country>" ++ c ++ "</Country></GeoIP>")
      = .ok { Country := c, State := t }
    ∧ xmlUnmarshal (geoIP c none) = .ok { Country := c, State := "" }
    ∧ xmlUnmarshal ("<Geo><Country>" ++ c ++ "</Country></Geo>") = .error .UnmarshalError
    ∧ Response.Unmarshal
        "<GetIpLocationResponse><GetIpLocationResult>&lt;GeoIP&gt;&lt;Country&gt;US&lt;/Country&gt;&lt;/GeoIP&gt;</GetIpLocationResult></GetIpLocationResponse>"
      = .ok { GetIPLocationResult := "<GeoIP><Country>US</Country></GeoIP>" }
    ∧ xmlUnmarshal "<GeoIP><Country>US</Country></GeoIP>"
      = .ok { Country := "US", State := "" } := by
  have hmap : String.mk (s.data.map sanitize) = s := by
    rw [map_sanitize s.data hs]
  refine ⟨?_, ?_, ?_, xmlUnmarshal_geoIP_state c t hc ht, xmlUnmarshal_swapped c t hc ht,
    xmlUnmarshal_geoIP c hc, xmlUnmarshal_root c hc, Unmarshal_specBody, by rfl⟩
  · rw [Unmarshal_escaped, hmap]
  · rw [Unmarshal_among, hmap]
  · intro _
    rw [Unmarshal_other]
    simp

/-- Witness of C1: an inner text with markup, quotes, an ampersand and a line
end, and the inner document of a country with its state. -/
theorem two_step_decode_witness :
    Response.Unmarshal (responseBody (EscapeText "<a href=\"x\">Fish & Chips</a>\r\n"))
        = .ok { GetIPLocationResult := "<a href=\"x\">Fish & Chips</a>\r\n" }
      ∧ xmlUnmarshal "<GeoIP><Country>US</Country><State>CA</State></GeoIP>"
        = .ok { Country := "US", State := "CA" } :=
  ⟨(two_step_decode "<a href=\"x\">Fish & Chips</a>\r\n" "US" "CA" (by decide) (by decide)
      (by decide)).1,
    (two_step_decode "<a href=\"x\">Fish & Chips</a>\r\n" "US" "CA" (by decide) (by decide)
      (by decide)).2.2.2.1⟩

end Gosoap
